import Mathlib

/-!
# Verification of the `sunrpc` Python library

A shallow embedding of the core of the `usdAG/sunrpc` repository
(Sun/ONC RPC v2 library) together with proofs about it.

Conventions of the embedding:

* Python `bytes` values are `List Nat`, one entry per byte (entries are
  kept below 256 by construction).
* Python `str` values are lists of Unicode code points; `str.encode()` /
  `bytes.decode()` are modelled by an explicit UTF-8 codec.
* Python exceptions are modelled by the `PyErr` error type together with
  `Except`; an uncaught exception of a modelled function is an
  `Except.error`.
* The `xdrlib` standard-library `Packer` writes into a growable byte
  buffer (modelled as the `List Nat` it has written) and the `Unpacker`
  is a buffer plus a cursor position, exactly as in `xdrlib.py`.
* Machine integers are `Nat`/`Int` with explicit range checks where
  `struct.pack` would raise (`>L` needs `0 ≤ x < 2^32`, `>l` needs
  `-2^31 ≤ x < 2^31`).
-/

namespace SunRPC

/-- The Python exceptions that the modelled code can raise or catch.
`headerError r` models the library's `RPCHeaderError(response)` carrying
an optional already-serialized reply; `unboundLocal` models an
`UnboundLocalError` for a local variable referenced before assignment;
`xdrError` models `xdrlib.Error` (a direct subclass of `Exception`,
not of `RuntimeError`); `conversionError` models `xdrlib.ConversionError`
(wrapping `struct.error`). -/
inductive PyErr where
  | eofError
  | headerError (response : Option (List Nat))
  | conversionError
  | typeError
  | valueError
  | unicodeError
  | attributeError
  | xdrError
  | runtimeError
  | rpcGarbageArgs
  | rpcError
  | rpcUnpackError
  | unboundLocal
  | structError
  | outOfFuel
  | nonTermination
  deriving DecidableEq, Repr

/-- Protocol constants from `sunrpc/sunrpc.py`. -/
def RPCVERSION : Nat := 2

def CALL : Int := 0

def REPLY : Nat := 1

def AUTH_NULL : Int := 0

def MSG_ACCEPTED : Nat := 0

def MSG_DENIED : Nat := 1

def SUCCESS : Nat := 0

def PROG_UNAVAIL : Nat := 1

def PROG_MISMATCH : Nat := 2

def PROC_UNAVAIL : Nat := 3

def GARBAGE_ARGS : Nat := 4

def RPC_MISMATCH : Nat := 0

def FRAGMENT_SIZE : Nat := 0x7fffffff

/-- Big-endian 4-byte encoding of `x % 2^32` (`struct.pack('>L', x)`
for an in-range `x`). -/
def be4 (x : Nat) : List Nat :=
  [x / 2 ^ 24 % 256, x / 2 ^ 16 % 256, x / 2 ^ 8 % 256, x % 256]

/-- Big-endian interpretation of a 4-byte list
(`struct.unpack('>L', data)[0]`). -/
def beToNat (data : List Nat) : Nat :=
  match data with
  | [a, b, c, d] => ((a * 256 + b) * 256 + c) * 256 + d
  | _ => 0

/-- Reinterpret an unsigned 32-bit value as the signed value that
`struct.unpack('>l', _)` would produce for the same four bytes. -/
def toSigned (x : Nat) : Int :=
  if x < 2 ^ 31 then (x : Int) else (x : Int) - 2 ^ 32

/-- Number of zero padding bytes XDR appends after `n` payload bytes:
`((n+3)//4)*4 - n`. -/
def padLen (n : Nat) : Nat :=
  (n + 3) / 4 * 4 - n

/-- An authentication record as parsed from the wire:
`(flavor, opaque body)`. The flavor is signed because `unpack_auth`
reads it with `unpack_enum`. -/
def Auth := Int × List Nat

instance : DecidableEq Auth := instDecidableEqProd

/-- The NULL auth record `(AUTH_NULL, make_auth_null())`. -/
instance : Repr Auth := inferInstanceAs (Repr (Int × List Nat))

def authNull : Auth := (0, [])

/-! ## `xdrlib.Packer` (the write half of the codec)

A packer is identified with the byte buffer it has produced so far;
each `pack_*` method appends to it.  Methods that `struct.pack`
out-of-range values raise `ConversionError`. -/

/-- `Packer.pack_uint` (`struct.pack('>L', x)`). -/
def packUint (buf : List Nat) (x : Nat) : Except PyErr (List Nat) :=
  if x < 2 ^ 32 then .ok (buf ++ be4 x) else .error .conversionError

/-- `Packer.pack_int` / `pack_enum` (`struct.pack('>l', x)`), two's
complement big-endian. -/
def packInt (buf : List Nat) (x : Int) : Except PyErr (List Nat) :=
  if -(2 ^ 31) ≤ x ∧ x < 2 ^ 31 then .ok (buf ++ be4 (x % 2 ^ 32).toNat)
  else .error .conversionError

/-- `Packer.pack_fstring n s` for a bytes value: truncate to `n` bytes
and zero-pad up to the 4-byte boundary of `n`. -/
def packFstringBytes (buf : List Nat) (n : Nat) (s : List Nat) : List Nat :=
  buf ++ (s.take n ++ List.replicate ((n + 3) / 4 * 4 - (s.take n).length) 0)

/-- `Packer.pack_string` / `pack_opaque` / `pack_bytes` on a bytes
value: length prefix followed by the padded payload. -/
def packOpaque (buf : List Nat) (s : List Nat) : Except PyErr (List Nat) := do
  let buf ← packUint buf s.length
  return packFstringBytes buf s.length s

/-- `Packer.pack_auth` from `sunrpc/sunrpc.py`: flavor as enum, body as
opaque. -/
def packAuth (buf : List Nat) (a : Auth) : Except PyErr (List Nat) := do
  let buf ← packInt buf a.1
  packOpaque buf a.2

/-- `Packer.pack_callheader` from `sunrpc/sunrpc.py`. -/
def packCallHeader (buf : List Nat) (xid prog vers proc : Nat)
    (cred verf : Auth) : Except PyErr (List Nat) := do
  let buf ← packUint buf xid
  let buf ← packInt buf CALL
  let buf ← packUint buf RPCVERSION
  let buf ← packUint buf prog
  let buf ← packUint buf vers
  let buf ← packUint buf proc
  let buf ← packAuth buf cred
  packAuth buf verf

/-! ## `xdrlib.Unpacker` (the read half of the codec) -/

/-- `xdrlib.Unpacker`: an immutable buffer plus a cursor position. -/
structure Unpacker where
  buf : List Nat
  pos : Nat
  deriving DecidableEq, Repr

namespace Unpacker

/-- `unpack_uint`: read 4 bytes big-endian unsigned; `EOFError` when
fewer than 4 bytes remain. -/
def unpackUint (u : Unpacker) : Except PyErr (Nat × Unpacker) :=
  let data := (u.buf.drop u.pos).take 4
  if data.length < 4 then .error .eofError
  else .ok (beToNat data, { u with pos := u.pos + 4 })

/-- `unpack_int` / `unpack_enum`: as `unpack_uint` but signed. -/
def unpackInt (u : Unpacker) : Except PyErr (Int × Unpacker) :=
  let data := (u.buf.drop u.pos).take 4
  if data.length < 4 then .error .eofError
  else .ok (toSigned (beToNat data), { u with pos := u.pos + 4 })

/-- `unpack_bool`: `bool(self.unpack_int())`. -/
def unpackBool (u : Unpacker) : Except PyErr (Bool × Unpacker) :=
  (u.unpackInt).map (fun p => (p.1 ≠ 0, p.2))

/-- `unpack_fstring n`: skip to the 4-byte boundary of `n`, return the
first `n` bytes of the region. -/
def unpackFstring (u : Unpacker) (n : Nat) : Except PyErr (List Nat × Unpacker) :=
  let j := u.pos + (n + 3) / 4 * 4
  if j > u.buf.length then .error .eofError
  else .ok ((u.buf.drop u.pos).take n, { u with pos := j })

/-- `unpack_string` / `unpack_opaque` / `unpack_bytes`: length prefix
then fixed string. -/
def unpackOpaque (u : Unpacker) : Except PyErr (List Nat × Unpacker) := do
  let (n, u) ← u.unpackUint
  u.unpackFstring n

/-- `Unpacker.unpack_auth` from `sunrpc/sunrpc.py`. -/
def unpackAuth (u : Unpacker) : Except PyErr (Auth × Unpacker) := do
  let (flavor, u) ← u.unpackInt
  let (stuff, u) ← u.unpackOpaque
  return ((flavor, stuff), u)

/-- `Unpacker.done`: raises `xdrlib.Error` if unextracted data remains.
Note that `xdrlib.Error` derives from `Exception`, not `RuntimeError`. -/
def done (u : Unpacker) : Except PyErr Unit :=
  if u.pos < u.buf.length then .error .xdrError else .ok ()

end Unpacker

/-! ## Record-marked framing (`sunrpc/utils.py`)

The stream is a finite list of bytes still to be read; `sock.recv(k)`
delivers at most `k` of them and returns the empty string once the
stream is exhausted. -/

/-- `sendfrag`: 4-byte big-endian header `len(frag) | (0x80000000 if
last)` followed by the fragment (`struct.pack('>I', x)` raises for
`x ≥ 2^32`). -/
def sendfrag (last : Bool) (frag : List Nat) : Except PyErr (List Nat) :=
  let x := frag.length
  let x := if last then x ||| 0x80000000 else x
  if x < 2 ^ 32 then .ok (be4 x ++ frag) else .error .structError

/-- The `(last, fragment)` pairs that `sendrecord`'s `while length > 0`
loop emits.  A `frag_size` of 0 would loop forever in Python
(`record[0:0]` never shrinks the record), modelled as `nonTermination`;
an empty record emits no fragment at all. -/
def sendrecordFrames (record : List Nat) (fragSize : Nat) :
    Except PyErr (List (Bool × List Nat)) :=
  if fragSize = 0 then .error .nonTermination
  else if record.length = 0 then .ok []
  else
    let last := decide (record.length ≤ fragSize)
    match sendrecordFrames (record.drop fragSize) fragSize with
    | .error e => .error e
    | .ok frames => .ok ((last, record.take fragSize) :: frames)
termination_by record.length
decreasing_by simp; omega

/-- One `sendfrag` call of `sendrecord`'s loop, appending the framed
fragment to the bytes already written to the socket. -/
def sendWireStep (acc : List Nat) (lf : Bool × List Nat) :
    Except PyErr (List Nat) := do
  let bytes ← sendfrag lf.1 lf.2
  return acc ++ bytes

/-- `sendrecord`: the concatenation of the framed fragments written to
the socket. -/
def sendrecord (record : List Nat) (fragSize : Nat) : Except PyErr (List Nat) := do
  let frames ← sendrecordFrames record fragSize
  frames.foldlM sendWireStep []

/-- `recvfrag`: read the 4-byte header, extract the LAST bit and the
31-bit length, then read exactly that many payload bytes.  Returns the
fragment together with the unread remainder of the stream. -/
def recvfrag (stream : List Nat) : Except PyErr ((Bool × List Nat) × List Nat) :=
  if (stream.take 4).length < 4 then .error .eofError
  else
    let h := beToNat (stream.take 4)
    let last := decide (h &&& 0x80000000 ≠ 0)
    let size := h &&& 0x7fffffff
    if (stream.drop 4).length < size then .error .eofError
    else .ok ((last, (stream.drop 4).take size), (stream.drop 4).drop size)

/-- `recvrecord`: concatenate fragment payloads until a fragment with
the LAST bit arrives. -/
def recvrecord (stream : List Nat) : Except PyErr (List Nat × List Nat) :=
  match h : recvfrag stream with
  | .error e => .error e
  | .ok ((last, frag), rest) =>
    if last then .ok (frag, rest)
    else
      match recvrecord rest with
      | .error e => .error e
      | .ok (record, rest') => .ok (frag ++ record, rest')
termination_by stream.length
decreasing_by
  simp only [recvfrag] at h
  split at h
  · exact absurd h (by simp)
  · split at h
    · exact absurd h (by simp)
    · rename_i h4 _
      simp only [Except.ok.injEq] at h
      obtain ⟨_, _, rfl⟩ := h
      simp only [List.length_take, List.length_drop] at h4 ⊢
      omega

/-! ## The server (`sunrpc/server.py`)

`Server.handle` is a pure function from call bytes to reply bytes; the
registry (`method_map`) maps procedure numbers to handlers that receive
the packer buffer and the unpacker. -/

/-- The `(prog, vers)` pair a server exposes. -/
structure ServerCfg where
  prog : Nat
  vers : Nat
  deriving DecidableEq, Repr

/-- A registered RPC method: receives the reply packer's buffer and the
call unpacker, returns their updated states (or raises). -/
def Handler := List Nat → Unpacker → Except PyErr (List Nat × Unpacker)

/-- `Server.get_call_attrs`: parse the call header while building the
reply header, raising `RPCHeaderError` with the partial reply at each
validation failure.  On success returns `(xid, call_id, auth, verf)`
plus the packer buffer and unpacker as left for the registry. -/
def getCallAttrs (cfg : ServerCfg) (buf : List Nat) (u : Unpacker) :
    Except PyErr ((Nat × Nat × Auth × Auth) × List Nat × Unpacker) := do
  let (xid, u) ← u.unpackUint
  let buf ← packUint buf xid
  let (temp, u) ← u.unpackInt
  if temp ≠ CALL then
    throw (.headerError none)
  let buf ← packUint buf REPLY
  let (temp2, u) ← u.unpackUint
  if temp2 ≠ RPCVERSION then
    let buf ← packUint buf MSG_DENIED
    let buf ← packUint buf RPC_MISMATCH
    let buf ← packUint buf RPCVERSION
    let buf ← packUint buf RPCVERSION
    throw (.headerError (some buf))
  let buf ← packUint buf MSG_ACCEPTED
  let buf ← packAuth buf authNull
  let (prog, u) ← u.unpackUint
  if prog ≠ cfg.prog then
    let buf ← packUint buf PROG_UNAVAIL
    throw (.headerError (some buf))
  let (vers, u) ← u.unpackUint
  if vers ≠ cfg.vers then
    let buf ← packUint buf PROG_MISMATCH
    let buf ← packUint buf cfg.vers
    let buf ← packUint buf cfg.vers
    throw (.headerError (some buf))
  let (callId, u) ← u.unpackUint
  let (auth, u) ← u.unpackAuth
  let (verf, u) ← u.unpackAuth
  return ((xid, callId, auth, verf), buf, u)

/-- `Server.turn_around`: `unpacker.done()`, converting a
`RuntimeError` into `RPCGarbageArgs`.  `done` however raises
`xdrlib.Error`, which is not a `RuntimeError`, so the conversion branch
is dead and the `xdrlib.Error` propagates. -/
def turnAround : Handler := fun buf u =>
  match u.done with
  | .error .runtimeError => .error .rpcGarbageArgs
  | .error e => .error e
  | .ok () => .ok (buf, u)

/-- The method map of a freshly constructed server: procedure 0 is
pre-registered as `turn_around`. -/
def defaultMethods : Nat → Option Handler := fun proc =>
  if proc = 0 then some turnAround else none

/-- `Server.process_call`: look the procedure up in the method map;
missing procedures pack `PROC_UNAVAIL` and raise `RPCHeaderError` with
the reply so far; otherwise pack `SUCCESS` and run the handler. -/
def processCall (methods : Nat → Option Handler) (callId : Nat)
    (buf : List Nat) (u : Unpacker) : Except PyErr (List Nat × Unpacker) :=
  match methods callId with
  | none =>
    match packUint buf PROC_UNAVAIL with
    | .ok buf => .error (.headerError (some buf))
    | .error e => .error e
  | some method =>
    match packUint buf SUCCESS with
    | .ok buf => method buf u
    | .error e => .error e

/-- The `GARBAGE_ARGS` reply that `handle`'s `except` block assembles
after `packer.reset()`. -/
def garbageArgsReply (xid : Nat) : Except PyErr (List Nat) := do
  let buf ← packUint [] xid
  let buf ← packUint buf REPLY
  let buf ← packUint buf MSG_ACCEPTED
  let buf ← packAuth buf authNull
  packUint buf GARBAGE_ARGS

/-- `Server.handle`: run `get_call_attrs` and `process_call`; an
`RPCHeaderError` returns its (possibly `None`) response; an `EOFError`
or `RPCGarbageArgs` falls into the `except` block that rebuilds a
`GARBAGE_ARGS` reply from `xid` — but when the error came out of
`get_call_attrs` the tuple assignment never happened and `xid` is an
unbound local, so the block itself raises `UnboundLocalError`.  Any
other exception propagates. -/
def serverHandle (cfg : ServerCfg) (methods : Nat → Option Handler)
    (call : List Nat) : Except PyErr (Option (List Nat)) :=
  match getCallAttrs cfg [] (Unpacker.mk call 0) with
  | .ok ((xid, callId, _auth, _verf), buf, u) =>
    match processCall methods callId buf u with
    | .ok (buf, _) => .ok (some buf)
    | .error (.headerError r) => .ok r
    | .error .eofError =>
      (garbageArgsReply xid).map some
    | .error .rpcGarbageArgs =>
      (garbageArgsReply xid).map some
    | .error e => .error e
  | .error (.headerError r) => .ok r
  | .error .eofError => .error .unboundLocal
  | .error .rpcGarbageArgs => .error .unboundLocal
  | .error e => .error e

/-! ## Calls and clients (`sunrpc/sunrpc.py`, `sunrpc/client.py`) -/

/-- `sunrpc.Call`: outbound packer buffer (pre-seeded with the call
header) and inbound unpacker. -/
structure CallState where
  xid : Nat
  prog : Nat
  vers : Nat
  proc : Nat
  cred : Auth
  verf : Auth
  packerBuf : List Nat
  unpacker : Unpacker
  deriving Repr

/-- `Call.__init__`: default NULL cred/verf (`cred if cred else ...`;
a tuple is always truthy, `None` is falsy), then pack the call
header. -/
def mkCallState (xid prog vers proc : Nat) (cred verf : Option Auth) :
    Except PyErr CallState := do
  let c := cred.getD authNull
  let v := verf.getD authNull
  let buf ← packCallHeader [] xid prog vers proc c v
  return ⟨xid, prog, vers, proc, c, v, buf, Unpacker.mk [] 0⟩

/-- `Unpacker.process_message_type`: every `MSG_DENIED` sub-branch
raises; anything other than `MSG_ACCEPTED` raises. -/
def processMessageType (stat : Int) (u : Unpacker) : Except PyErr Unpacker :=
  if stat = 1 then do
    let (stat2, u) ← u.unpackInt
    if stat2 = 0 then do
      let (_low, u) ← u.unpackUint
      let (_high, _u) ← u.unpackUint
      throw .rpcUnpackError
    else if stat2 = 1 then do
      let (_code, _u) ← u.unpackUint
      throw .rpcUnpackError
    else throw .rpcUnpackError
  else if stat ≠ 0 then throw .rpcUnpackError
  else return u

/-- `Unpacker.process_result_type`: always raises (`RPCGarbageArgs` for
`GARBAGE_ARGS`, `RPCUnpackError` otherwise). -/
def processResultType (stat : Int) (u : Unpacker) : Except PyErr Unit :=
  if stat = 1 then throw .rpcUnpackError
  else if stat = 2 then do
    let (_low, u) ← u.unpackUint
    let (_high, _u) ← u.unpackUint
    throw .rpcUnpackError
  else if stat = 4 then throw .rpcGarbageArgs
  else throw .rpcUnpackError

/-- `Unpacker.unpack_replyheader`: returns `(xid, verf)` for a
`SUCCESS` reply and raises otherwise.  (If `process_result_type` could
return, the method would fall through returning `None`, which the
caller's tuple assignment would turn into a `TypeError`.) -/
def unpackReplyHeader (u : Unpacker) : Except PyErr ((Nat × Auth) × Unpacker) := do
  let (xid, u) ← u.unpackUint
  let (mtype, u) ← u.unpackInt
  if mtype ≠ 1 then throw .rpcUnpackError
  let (stat, u) ← u.unpackInt
  let u ← processMessageType stat u
  let (verf, u) ← u.unpackAuth
  let (stat2, u) ← u.unpackInt
  if stat2 = 0 then
    return ((xid, verf), u)
  else
    match processResultType stat2 u with
    | .error e => throw e
    | .ok () => throw .typeError

/-- `Call.set_reply`: reset the inbound unpacker onto the reply, parse
the reply header, accept on matching xid (cursor just past the header)
and otherwise reset the cursor to the empty buffer and return
`False`. -/
def setReply (c : CallState) (reply : List Nat) : Except PyErr (Bool × CallState) :=
  match unpackReplyHeader (Unpacker.mk reply 0) with
  | .error e => .error e
  | .ok ((xid, _verf), u) =>
    if xid = c.xid then .ok (true, { c with unpacker := u })
    else .ok (false, { c with unpacker := Unpacker.mk [] 0 })

/-- `sunrpc.client.Client`: `lastxid` starts at 0, cred/verf unset. -/
structure Client where
  prog : Nat
  vers : Nat
  lastxid : Nat
  cred : Option Auth
  verf : Option Auth
  deriving Repr

/-- `Client.__init__`. -/
def Client.init (prog vers : Nat) : Client :=
  ⟨prog, vers, 0, none, none⟩

/-- `Client.make_call`: increment `lastxid` first (this happens even if
the `Call` constructor then raises), then build the `Call`. -/
def Client.makeCall (cl : Client) (proc : Nat) : Client × Except PyErr CallState :=
  let lx := cl.lastxid + 1
  ({ cl with lastxid := lx }, mkCallState lx cl.prog cl.vers proc cl.cred cl.verf)

/-- The client state after `n` further `make_call` invocations. -/
def Client.afterCalls (cl : Client) (proc : Nat) : Nat → Client
  | 0 => cl
  | n + 1 => ((cl.afterCalls proc n).makeCall proc).1

/-- `UDPClient.do_call`'s retry loop in the no-tunnel case, after the
initial send.  The environment lists, per `select` window, either
`none` (the window times out) or `some datagram`; an exhausted
environment means no further data ever arrives.  Returns the list of
timeout arguments passed to `select`, the number of retransmissions,
and the outcome. -/
def udpAwaitDry (count : Int) (timeout : Nat) :
    List Nat × Nat × Except PyErr CallState :=
  let count' := count - 1
  if count' < 0 then ([timeout], 0, .error .rpcError)
  else
    let timeout' := if timeout < 25 then timeout * 2 else timeout
    let (waits, resends, res) := udpAwaitDry count' timeout'
    (timeout :: waits, resends + 1, res)
termination_by (count + 1).toNat
decreasing_by omega

/-- The retry loop proper: one step per `select` call.  On timeout the
counter is decremented (raising `RPCError('timeout')` when it drops
below zero), the timeout is doubled while it is `< 25`, and the call
bytes are retransmitted; on data the reply goes through `set_reply`,
a mismatched xid being discarded without touching counter or
timeout. -/
def udpAwait (c : CallState) (count : Int) (timeout : Nat) :
    List (Option (List Nat)) → List Nat × Nat × Except PyErr CallState
  | [] => udpAwaitDry count timeout
  | none :: env' =>
    let count' := count - 1
    if count' < 0 then ([timeout], 0, .error .rpcError)
    else
      let timeout' := if timeout < 25 then timeout * 2 else timeout
      let (waits, resends, res) := udpAwait c count' timeout' env'
      (timeout :: waits, resends + 1, res)
  | some dgram :: env' =>
    match setReply c dgram with
    | .error e => ([timeout], 0, .error e)
    | .ok (true, c') => ([timeout], 0, .ok c')
    | .ok (false, c') =>
      let (waits, resends, res) := udpAwait c' count timeout env'
      (timeout :: waits, resends, res)

/-- `UDPClient.do_call` without a tunnel: initial send (not counted as
a retransmission), then the retry loop with `count = 5`,
`timeout = 1`. -/
def udpDoCall (c : CallState) (env : List (Option (List Nat))) :
    List Nat × Nat × Except PyErr CallState :=
  udpAwait c 5 1 env

/-! ## The proxy (`sunrpc/proxy.py`) -/

/-- `Proxy.process_call` up to the construction of the upstream call:
copy the wire cred/verf/xid into the upstream client, then
`make_call(call_id)` (which increments `lastxid` again before using
it). -/
def proxyProcessCall (upstream : Client) (xid callId : Nat)
    (auth verf : Auth) : Client × Except PyErr CallState :=
  let cl := { upstream with cred := some auth, verf := some verf, lastxid := xid }
  cl.makeCall callId

/-! ## Typed argument descriptors (`sunrpc/types.py`)

A Python value is modelled by `PyVal`; strings carry their Unicode code
points and `str.encode()` / `bytes.decode()` are an explicit UTF-8
codec.  A descriptor (`RpcInt`, `RpcFString(n)`, `RpcList(inner)`, ...)
is an `RpcDesc`; its constructor, `packer_func` and
`unpacker_func`/`post_processing` are modelled separately, because
composites apply the inner descriptor's raw `packer_func`/
`unpacker_func` to raw element values, bypassing the inner constructor
and `post_processing`. -/

/-- A Python runtime value.  `pyFloat` carries no payload: the modelled
code paths only ever inspect a float's *type* (float payload semantics
are outside this embedding). -/
inductive PyVal where
  | pyInt (n : Int)
  | pyBool (b : Bool)
  | pyStr (s : List Nat)
  | pyBytes (b : List Nat)
  | pyList (xs : List PyVal)
  | pyFloat
  | pyNone
  deriving Repr

/-- Python type tags, for `type(value) != ...` checks. -/
inductive PyTag where
  | int | bool | str | bytes | list | float | nonetype
  deriving DecidableEq, Repr

/-- `type(v)`. -/
def PyVal.tag : PyVal → PyTag
  | .pyInt _ => .int
  | .pyBool _ => .bool
  | .pyStr _ => .str
  | .pyBytes _ => .bytes
  | .pyList _ => .list
  | .pyFloat => .float
  | .pyNone => .nonetype

/-- Python truthiness (`if value:`).  A `pyFloat` is treated as truthy;
no modelled code path queries a float's truthiness. -/
def PyVal.truthy : PyVal → Bool
  | .pyInt n => n ≠ 0
  | .pyBool b => b
  | .pyStr s => !s.isEmpty
  | .pyBytes b => !b.isEmpty
  | .pyList xs => !xs.isEmpty
  | .pyFloat => true
  | .pyNone => false

/-- `len(v)` (`TypeError` for unsized values). -/
def pyLen : PyVal → Except PyErr Nat
  | .pyStr s => .ok s.length
  | .pyBytes b => .ok b.length
  | .pyList xs => .ok xs.length
  | _ => .error .typeError

/-- `for item in v`: lists yield their items, strings their 1-character
substrings, bytes their integer bytes; other values raise
`TypeError`. -/
def pyIterate : PyVal → Except PyErr (List PyVal)
  | .pyList xs => .ok xs
  | .pyStr s => .ok (s.map (fun c => .pyStr [c]))
  | .pyBytes b => .ok (b.map (fun x => .pyInt x))
  | _ => .error .typeError

/-- The descriptors of `sunrpc/types.py` (`RpcFloat`/`RpcDouble` are
handled separately in `RpcClass`; their payload semantics are
IEEE-754). -/
inductive RpcDesc where
  | rInt
  | rUInt
  | rBool
  | rStr
  | rBytes
  | rFString (n : Nat)
  | rFBytes (n : Nat)
  | rList (inner : RpcDesc)
  | rArray (inner : RpcDesc)
  | rFArray (inner : RpcDesc) (n : Nat)
  deriving DecidableEq, Repr

/-- Whether a code point survives `str.encode()` (CPython rejects
surrogates and anything above U+10FFFF). -/
def validCodepoint (c : Nat) : Bool :=
  decide (c < 0x110000) && !(decide (0xd800 ≤ c) && decide (c < 0xe000))

/-- UTF-8 encoding of a single valid code point. -/
def utf8EncodeChar (c : Nat) : List Nat :=
  if c < 0x80 then [c]
  else if c < 0x800 then [0xc0 + c / 64, 0x80 + c % 64]
  else if c < 0x10000 then
    [0xe0 + c / 4096, 0x80 + c / 64 % 64, 0x80 + c % 64]
  else
    [0xf0 + c / 262144, 0x80 + c / 4096 % 64, 0x80 + c / 64 % 64, 0x80 + c % 64]

/-- `str.encode()`: UTF-8 bytes, `UnicodeEncodeError` on surrogates or
out-of-range code points. -/
def utf8Encode (s : List Nat) : Except PyErr (List Nat) :=
  if s.all validCodepoint then .ok (s.map utf8EncodeChar).flatten
  else .error .unicodeError

/-- `bytes.decode()`: strict UTF-8 decoding with the usual validity
windows for continuation bytes (rejecting overlong forms, surrogates
and values above U+10FFFF). -/
def utf8Decode : List Nat → Except PyErr (List Nat)
  | [] => .ok []
  | b1 :: rest =>
    if b1 < 0x80 then
      (utf8Decode rest).map (b1 :: ·)
    else if 0xc2 ≤ b1 ∧ b1 ≤ 0xdf then
      match rest with
      | b2 :: rest2 =>
        if 0x80 ≤ b2 ∧ b2 ≤ 0xbf then
          (utf8Decode rest2).map (((b1 - 0xc0) * 64 + (b2 - 0x80)) :: ·)
        else .error .unicodeError
      | _ => .error .unicodeError
    else if 0xe0 ≤ b1 ∧ b1 ≤ 0xef then
      match rest with
      | b2 :: b3 :: rest3 =>
        let lo2 := if b1 = 0xe0 then 0xa0 else 0x80
        let hi2 := if b1 = 0xed then 0x9f else 0xbf
        if (lo2 ≤ b2 ∧ b2 ≤ hi2) ∧ (0x80 ≤ b3 ∧ b3 ≤ 0xbf) then
          (utf8Decode rest3).map
            ((((b1 - 0xe0) * 64 + (b2 - 0x80)) * 64 + (b3 - 0x80)) :: ·)
        else .error .unicodeError
      | _ => .error .unicodeError
    else if 0xf0 ≤ b1 ∧ b1 ≤ 0xf4 then
      match rest with
      | b2 :: b3 :: b4 :: rest4 =>
        let lo2 := if b1 = 0xf0 then 0x90 else 0x80
        let hi2 := if b1 = 0xf4 then 0x8f else 0xbf
        if (lo2 ≤ b2 ∧ b2 ≤ hi2) ∧ (0x80 ≤ b3 ∧ b3 ≤ 0xbf) ∧
            (0x80 ≤ b4 ∧ b4 ≤ 0xbf) then
          (utf8Decode rest4).map
            (((((b1 - 0xf0) * 64 + (b2 - 0x80)) * 64 + (b3 - 0x80)) * 64
              + (b4 - 0x80)) :: ·)
        else .error .unicodeError
      | _ => .error .unicodeError
    else .error .unicodeError
termination_by l => l.length
decreasing_by all_goals simp_all <;> omega

/-- The homogeneity loop of `RpcList`/`RpcArray`/`RpcFArray`:
`type(item) == type(value[0])` for every item. -/
def homogeneous : List PyVal → Bool
  | [] => true
  | x :: xs => xs.all (fun y => y.tag = x.tag)

/-- The `__init__` of each descriptor: validation plus the value the
instance stores in `self.value`.  `RpcStr` stores `value.encode()`;
`RpcFString` reaches `self.value = value.decode()` for any truthy
(hence `str`-typed, correct-length) value, and `str` has no `decode`,
so that branch always raises `AttributeError`. -/
def descConstruct : RpcDesc → PyVal → Except PyErr PyVal
  | .rInt, v =>
    if v.truthy ∧ v.tag ≠ .int then .error .valueError else .ok v
  | .rUInt, v =>
    if v.truthy ∧ v.tag ≠ .int then .error .valueError else .ok v
  | .rBool, v =>
    if v.truthy ∧ v.tag ≠ .bool then .error .valueError else .ok v
  | .rStr, v =>
    if v.truthy then
      match v with
      | .pyStr s => (utf8Encode s).map .pyBytes
      | _ => .error .valueError
    else .ok v
  | .rBytes, v =>
    if v.truthy ∧ v.tag ≠ .bytes then .error .valueError else .ok v
  | .rFString n, v =>
    if v.truthy then
      match v with
      | .pyStr s =>
        if s.length ≠ n then .error .valueError
        else .error .attributeError
      | _ => .error .valueError
    else .ok v
  | .rFBytes n, v =>
    if v.truthy then
      match v with
      | .pyBytes b =>
        if b.length ≠ n then .error .valueError else .ok v
      | _ => .error .valueError
    else .ok v
  | .rList _, v =>
    if v.truthy then
      match v with
      | .pyList xs =>
        if homogeneous xs then .ok v else .error .valueError
      | _ => .error .valueError
    else .ok v
  | .rArray _, v =>
    if v.truthy then
      match v with
      | .pyList xs =>
        if homogeneous xs then .ok v else .error .valueError
      | _ => .error .valueError
    else .ok v
  | .rFArray _ n, v =>
    if v.truthy then
      match v with
      | .pyList xs =>
        if xs.length ≠ n then .error .valueError
        else if homogeneous xs then .ok v else .error .valueError
      | _ => .error .valueError
    else .ok v

mutual

/-- The `packer_func` of each descriptor, applied to the stored value.
Integer packs go through `struct` (raising `ConversionError` out of
range, a Python `bool` being accepted as an `int`); `pack_string`
first takes `len`, then writes the length prefix, then `pack_fstring`
pads with *bytes*, so a `str` payload raises `TypeError` at the
`data + padding` concatenation; composites iterate the value and apply
the inner `packer_func` to each raw item. -/
def descPackFunc : RpcDesc → PyVal → List Nat → Except PyErr (List Nat)
  | .rInt, v, buf =>
    (match v with
     | .pyInt n => packInt buf n
     | .pyBool b => packInt buf (if b then 1 else 0)
     | _ => .error .conversionError)
  | .rUInt, v, buf =>
    (match v with
     | .pyInt n =>
       if 0 ≤ n ∧ n < 2 ^ 32 then .ok (buf ++ be4 n.toNat)
       else .error .conversionError
     | .pyBool b => .ok (buf ++ be4 (if b then 1 else 0))
     | _ => .error .conversionError)
  | .rBool, v, buf => .ok (buf ++ be4 (if v.truthy then 1 else 0))
  | .rStr, v, buf => packStringLike v buf
  | .rBytes, v, buf => packStringLike v buf
  | .rFString n, v, buf => packFstringLike n v buf
  | .rFBytes n, v, buf => packFstringLike n v buf
  | .rList inner, v, buf => do
    let items ← pyIterate v
    let buf ← packMarkedSeq inner items buf
    packUint buf 0
  | .rArray inner, v, buf => do
    let n ← pyLen v
    let buf ← packUint buf n
    let items ← pyIterate v
    packPlainSeq inner items buf
  | .rFArray inner n, v, buf => do
    let m ← pyLen v
    if m ≠ n then .error .valueError
    else do
      let items ← pyIterate v
      packPlainSeq inner items buf
termination_by d v buf => (sizeOf d, 0, 0)

/-- `Packer.pack_string` on an arbitrary stored value. -/
def packStringLike : PyVal → List Nat → Except PyErr (List Nat)
  | .pyBytes b, buf => do
    let buf ← packUint buf b.length
    return packFstringBytes buf b.length b
  | .pyStr s, buf => do
    let _ ← packUint buf s.length
    .error .typeError
  | .pyList xs, buf => do
    let _ ← packUint buf xs.length
    .error .typeError
  | _, _ => .error .typeError

/-- `Packer.pack_fstring n` on an arbitrary stored value. -/
def packFstringLike : Nat → PyVal → List Nat → Except PyErr (List Nat)
  | n, .pyBytes b, buf => .ok (packFstringBytes buf n b)
  | _, _, _ => .error .typeError

/-- `pack_list`'s loop: `pack_uint 1` then the inner `packer_func` per
item. -/
def packMarkedSeq (inner : RpcDesc) (items : List PyVal) (buf : List Nat) :
    Except PyErr (List Nat) :=
  match items with
  | [] => .ok buf
  | item :: rest => do
    let buf ← packUint buf 1
    let buf ← descPackFunc inner item buf
    packMarkedSeq inner rest buf
termination_by (sizeOf inner, 1, sizeOf items)

/-- `pack_farray`'s loop: the inner `packer_func` per item. -/
def packPlainSeq (inner : RpcDesc) (items : List PyVal) (buf : List Nat) :
    Except PyErr (List Nat) :=
  match items with
  | [] => .ok buf
  | item :: rest => do
    let buf ← descPackFunc inner item buf
    packPlainSeq inner rest buf
termination_by (sizeOf inner, 1, sizeOf items)

end

mutual

/-- The `unpacker_func` of each descriptor (without `post_processing`):
exactly the `xdrlib` reader the descriptor binds.  The `fuel`
parameter bounds only the wire-driven `unpack_list` loop, which has no
structural bound; every claim supplies enough fuel for it never to be
exhausted. -/
def descUnpack (d : RpcDesc) (fuel : Nat) (u : Unpacker) :
    Except PyErr (PyVal × Unpacker) :=
  match d with
  | .rInt => (u.unpackInt).map (fun p => (.pyInt p.1, p.2))
  | .rUInt => (u.unpackUint).map (fun p => (.pyInt (p.1 : Int), p.2))
  | .rBool => (u.unpackBool).map (fun p => (.pyBool p.1, p.2))
  | .rStr => (u.unpackOpaque).map (fun p => (.pyBytes p.1, p.2))
  | .rBytes => (u.unpackOpaque).map (fun p => (.pyBytes p.1, p.2))
  | .rFString n => (u.unpackFstring n).map (fun p => (.pyBytes p.1, p.2))
  | .rFBytes n => (u.unpackFstring n).map (fun p => (.pyBytes p.1, p.2))
  | .rList inner =>
    (unpackMarkedSeq inner fuel u).map (fun p => (.pyList p.1, p.2))
  | .rArray inner => do
    let (n, u) ← u.unpackUint
    let (xs, u) ← unpackPlainSeq inner fuel n u
    return (.pyList xs, u)
  | .rFArray inner n =>
    (unpackPlainSeq inner fuel n u).map (fun p => (.pyList p.1, p.2))
termination_by (sizeOf d, 0, 0)

/-- `unpack_list`'s loop: continuation marker 0 ends the list, 1
prefixes an element, anything else is a `ConversionError`. -/
def unpackMarkedSeq (inner : RpcDesc) (fuel : Nat) (u : Unpacker) :
    Except PyErr (List PyVal × Unpacker) :=
  match fuel with
  | 0 => .error .outOfFuel
  | fuel + 1 => do
    let (m, u) ← u.unpackUint
    if m = 0 then return ([], u)
    else if m = 1 then do
      let (v, u) ← descUnpack inner fuel u
      let (vs, u) ← unpackMarkedSeq inner fuel u
      return (v :: vs, u)
    else .error .conversionError
termination_by (sizeOf inner, 1, fuel)

/-- `unpack_farray`'s loop: exactly `n` elements. -/
def unpackPlainSeq (inner : RpcDesc) (fuel : Nat) (n : Nat) (u : Unpacker) :
    Except PyErr (List PyVal × Unpacker) :=
  match n with
  | 0 => .ok ([], u)
  | n + 1 => do
    let (v, u) ← descUnpack inner fuel u
    let (vs, u) ← unpackPlainSeq inner fuel n u
    return (v :: vs, u)
termination_by (sizeOf inner, 1, n)

end

/-- `RpcType.unpack`'s `post_processing` step: only `RpcStr` overrides
it (`value.decode()`); in particular `RpcFString` inherits the identity
and yields raw bytes. -/
def postProcess (d : RpcDesc) (v : PyVal) : Except PyErr PyVal :=
  match d with
  | .rStr =>
    match v with
    | .pyBytes b => (utf8Decode b).map .pyStr
    | _ => .error .attributeError
  | _ => .ok v

/-- `RpcType.unpack`: the raw `unpacker_func` followed by
`post_processing`. -/
def rpcUnpack (d : RpcDesc) (fuel : Nat) (u : Unpacker) :
    Except PyErr (PyVal × Unpacker) := do
  let (v, u) ← descUnpack d fuel u
  let v ← postProcess d v
  return (v, u)

/-- The full round trip of the spec's XDR property: construct the
descriptor with the value, pack into a fresh packer, unpack the
resulting bytes with a freshly constructed descriptor. -/
def rpcRoundTrip (d : RpcDesc) (fuel : Nat) (v : PyVal) : Except PyErr PyVal := do
  let stored ← descConstruct d v
  let wire ← descPackFunc d stored []
  let (v', _) ← rpcUnpack d fuel (Unpacker.mk wire 0)
  return v'

/-- The entries of a `Call.unpack_all` type list: either one of the
`RpcDesc` descriptors or `RpcFloat`/`RpcDouble`, whose constructors
demand `type(value) == float` even for the default `None`. -/
inductive RpcClass where
  | cls (d : RpcDesc)
  | clsFloat
  | clsDouble
  deriving DecidableEq, Repr

/-- `Call.unpack_all`: for each expected type, instantiate it with no
value (`obj = ret()`), then `obj.unpack(self.unpacker)`.  Returns the
final cursor together with the result; `RpcFloat()`/`RpcDouble()`
raise `ValueError` before touching the cursor. -/
def unpackAll (fuel : Nat) : List RpcClass → Unpacker →
    Unpacker × Except PyErr (List PyVal)
  | [], u => (u, .ok [])
  | .cls d :: rest, u =>
    (match descConstruct d .pyNone with
     | .error e => (u, .error e)
     | .ok _ =>
       match rpcUnpack d fuel u with
       | .error e => (u, .error e)
       | .ok (v, u') =>
         let (u'', res) := unpackAll fuel rest u'
         (u'', res.map (v :: ·)))
  | .clsFloat :: _, u => (u, .error .valueError)
  | .clsDouble :: _, u => (u, .error .valueError)

/-! ## Wire-level helpers used to state the theorems -/

/-- An auth record as it appears on the wire: flavor, length prefix,
body, zero padding. -/
def mkAuthWire (flavor : Nat) (body : List Nat) : List Nat :=
  be4 flavor ++ be4 body.length ++ body ++ List.replicate (padLen body.length) 0

/-- A call message laid out field by field (values arbitrary, each
written as one big-endian word), followed by the argument bytes. -/
def mkCallWire (xid mtype rpcv prog vers proc : Nat) (fc : Nat)
    (bc : List Nat) (fv : Nat) (bv : List Nat) (args : List Nat) : List Nat :=
  be4 xid ++ be4 mtype ++ be4 rpcv ++ be4 prog ++ be4 vers ++ be4 proc ++
    mkAuthWire fc bc ++ mkAuthWire fv bv ++ args

/-- The accepted-reply prefix the server builds before dispatching:
xid, REPLY, MSG_ACCEPTED, NULL verifier. -/
def acceptedHdr (xid : Nat) : List Nat :=
  be4 xid ++ be4 1 ++ be4 0 ++ be4 0 ++ be4 0

/-- A reply message: xid, REPLY, MSG_ACCEPTED, a verifier, an accept
status word, then the result payload. -/
def mkReplyWire (xid : Nat) (fv : Nat) (bv : List Nat) (stat : Nat)
    (payload : List Nat) : List Nat :=
  be4 xid ++ be4 1 ++ be4 0 ++ mkAuthWire fv bv ++ be4 stat ++ payload

/-- A throwaway concrete `Call` used in closed statements. -/
def callZero : CallState :=
  ⟨1, 100000, 2, 0, authNull, authNull, [], ⟨[], 0⟩⟩

/-! ## Validity and expected encodings for the round-trip property -/

/-- The Python type tag of the values a descriptor codes. -/
def tagOf : RpcDesc → PyTag
  | .rInt => .int
  | .rUInt => .int
  | .rBool => .bool
  | .rStr => .str
  | .rBytes => .bytes
  | .rFString _ => .str
  | .rFBytes _ => .bytes
  | .rList _ => .list
  | .rArray _ => .list
  | .rFArray _ _ => .list

mutual

/-- Values for which the XDR round trip is provable: correctly typed,
in the integer ranges `struct` accepts, with `FString` (constructor
always raises) and `String` in element position (inner `pack_string`
raises `TypeError` on a raw `str`) excluded. -/
def strictValid : RpcDesc → PyVal → Bool
  | .rInt, .pyInt n => decide (-(2 ^ 31) ≤ n) && decide (n < 2 ^ 31)
  | .rUInt, .pyInt n => decide (0 ≤ n) && decide (n < 2 ^ 32)
  | .rBool, .pyBool _ => true
  | .rBytes, .pyBytes b => decide (b.length < 2 ^ 32)
  | .rFBytes n, .pyBytes b => decide (b.length = n)
  | .rList inner, .pyList xs => strictValidAll inner xs
  | .rArray inner, .pyList xs =>
    decide (xs.length < 2 ^ 32) && strictValidAll inner xs
  | .rFArray inner n, .pyList xs =>
    decide (xs.length = n) && strictValidAll inner xs
  | _, _ => false
termination_by d v => sizeOf d + sizeOf v

/-- All elements of a collection are strictly valid for the inner
descriptor. -/
def strictValidAll (inner : RpcDesc) : List PyVal → Bool
  | [] => true
  | x :: xs => strictValid inner x && strictValidAll inner xs
termination_by xs => sizeOf inner + sizeOf xs + 1

end

/-- Top-level validity: additionally admits `String` at the top level
(code points encodable, encoding length packable). -/
def validTop (d : RpcDesc) (v : PyVal) : Bool :=
  match d, v with
  | .rStr, .pyStr s => s.all validCodepoint && decide (s.length < 2 ^ 30)
  | _, _ => strictValid d v

mutual

/-- The bytes `packer_func` writes for a strictly valid value. -/
def packBytes : RpcDesc → PyVal → List Nat
  | .rInt, .pyInt n => be4 (n % 2 ^ 32).toNat
  | .rUInt, .pyInt n => be4 n.toNat
  | .rBool, .pyBool b => be4 (if b then 1 else 0)
  | .rBytes, .pyBytes b => be4 b.length ++ b ++ List.replicate (padLen b.length) 0
  | .rFBytes n, .pyBytes b =>
    b.take n ++ List.replicate ((n + 3) / 4 * 4 - (b.take n).length) 0
  | .rList inner, .pyList xs => packBytesMarked inner xs ++ be4 0
  | .rArray inner, .pyList xs => be4 xs.length ++ packBytesPlain inner xs
  | .rFArray inner _, .pyList xs => packBytesPlain inner xs
  | _, _ => []
termination_by d v => sizeOf d + sizeOf v

/-- Expected bytes of a marker-separated (`pack_list`) sequence, the
trailing 0 marker excluded. -/
def packBytesMarked (inner : RpcDesc) : List PyVal → List Nat
  | [] => []
  | x :: xs => be4 1 ++ packBytes inner x ++ packBytesMarked inner xs
termination_by xs => sizeOf inner + sizeOf xs + 1

/-- Expected bytes of a plain (`pack_farray`) sequence. -/
def packBytesPlain (inner : RpcDesc) : List PyVal → List Nat
  | [] => []
  | x :: xs => packBytes inner x ++ packBytesPlain inner xs
termination_by xs => sizeOf inner + sizeOf xs + 1

end

mutual

/-- Fuel sufficient for `descUnpack` on the encoding of `v` (only
`unpack_list` loops consume fuel). -/
def fuelNeeded : RpcDesc → PyVal → Nat
  | .rList inner, .pyList xs => fuelNeededMarked inner xs
  | .rArray inner, .pyList xs => fuelNeededPlain inner xs
  | .rFArray inner _, .pyList xs => fuelNeededPlain inner xs
  | _, _ => 0
termination_by d v => sizeOf d + sizeOf v

def fuelNeededMarked (inner : RpcDesc) : List PyVal → Nat
  | [] => 1
  | x :: xs => 1 + max (fuelNeeded inner x) (fuelNeededMarked inner xs)
termination_by xs => sizeOf inner + sizeOf xs + 1

def fuelNeededPlain (inner : RpcDesc) : List PyVal → Nat
  | [] => 0
  | x :: xs => max (fuelNeeded inner x) (fuelNeededPlain inner xs)
termination_by xs => sizeOf inner + sizeOf xs + 1

end


/-- `RpcFloat.__init__` / `RpcDouble.__init__`: unlike the other
descriptors they check `type(value) != float` without a truthiness
guard, so even the default `None` raises `ValueError`. -/
def rpcFloatInit (v : PyVal) : Except PyErr PyVal :=
  if v.tag ≠ .float then .error .valueError else .ok v

/-! # Theorems -/

theorem be4_length (x : Nat) : (be4 x).length = 4 := by
  simp [be4]

theorem beToNat_be4 (x : Nat) (h : x < 2 ^ 32) : beToNat (be4 x) = x := by
  simp only [be4, beToNat]
  omega

theorem padLen_eq (n : Nat) : (n + 3) / 4 * 4 = n + padLen n := by
  simp only [padLen]
  omega

/-- Stepping lemma: `unpack_uint` on a cursor looking at a big-endian
word. -/
theorem unpackUint_spec (u : Unpacker) (x : Nat) (tail : List Nat)
    (hx : x < 2 ^ 32) (h : u.buf.drop u.pos = be4 x ++ tail) :
    u.unpackUint = .ok (x, ⟨u.buf, u.pos + 4⟩) := by
  have h4 : (be4 x ++ tail).take 4 = be4 x := by
    have := be4_length x
    exact List.take_left' this
  simp only [Unpacker.unpackUint, h, h4, be4_length, lt_irrefl, if_false,
    beToNat_be4 x hx]

/-- Stepping lemma: `unpack_int` / `unpack_enum`. -/
theorem unpackInt_spec (u : Unpacker) (x : Nat) (tail : List Nat)
    (hx : x < 2 ^ 32) (h : u.buf.drop u.pos = be4 x ++ tail) :
    u.unpackInt = .ok (toSigned x, ⟨u.buf, u.pos + 4⟩) := by
  have h4 : (be4 x ++ tail).take 4 = be4 x := by
    have := be4_length x
    exact List.take_left' this
  simp only [Unpacker.unpackInt, h, h4, be4_length, lt_irrefl, if_false,
    beToNat_be4 x hx]

/-- A cursor that looks at `rest` sits `rest.length` bytes before the
end of its buffer. -/
theorem drop_length_sum {l rest : List Nat} {p : Nat} (hpos : p ≤ l.length)
    (h : l.drop p = rest) : l.length = p + rest.length := by
  have hc := congrArg List.length h
  simp only [List.length_drop] at hc
  omega

/-- Stepping lemma: `unpack_fstring` on a padded region. -/
theorem unpackFstring_spec (u : Unpacker) (n : Nat) (body tail : List Nat)
    (hlen : body.length = n) (hpos : u.pos ≤ u.buf.length)
    (h : u.buf.drop u.pos = body ++ List.replicate (padLen n) 0 ++ tail) :
    u.unpackFstring n = .ok (body, ⟨u.buf, u.pos + n + padLen n⟩) := by
  have hL := drop_length_sum hpos h
  simp only [List.length_append, List.length_replicate, hlen] at hL
  have hpad := padLen_eq n
  have hup : ¬ u.pos + (n + 3) / 4 * 4 > u.buf.length := by omega
  have htake : (body ++ (List.replicate (padLen n) 0 ++ tail)).take n = body :=
    List.take_left' hlen
  have hpos2 : u.pos + (n + 3) / 4 * 4 = u.pos + n + padLen n := by omega
  simp only [Unpacker.unpackFstring, h, List.append_assoc, htake]
  rw [if_neg hup, hpos2]

/-- Stepping lemma: `unpack_opaque` on a length-prefixed padded
region. -/
theorem unpackOpaque_spec (u : Unpacker) (body tail : List Nat)
    (hlen : body.length < 2 ^ 32) (hpos : u.pos ≤ u.buf.length)
    (h : u.buf.drop u.pos =
      be4 body.length ++ body ++ List.replicate (padLen body.length) 0 ++ tail) :
    u.unpackOpaque =
      .ok (body, ⟨u.buf, u.pos + 4 + body.length + padLen body.length⟩) := by
  have hL := drop_length_sum hpos h
  simp only [List.length_append, be4_length, List.length_replicate] at hL
  have h1 := unpackUint_spec u body.length
    (body ++ List.replicate (padLen body.length) 0 ++ tail) hlen
    (by simp [h, List.append_assoc])
  have hdrop : u.buf.drop (u.pos + 4) =
      body ++ List.replicate (padLen body.length) 0 ++ tail := by
    have heq : u.buf.drop (u.pos + 4) = (u.buf.drop u.pos).drop 4 := by
      rw [List.drop_drop]
    rw [heq, h]
    rw [show be4 body.length ++ body ++ List.replicate (padLen body.length) 0 ++ tail
        = be4 body.length ++ (body ++ List.replicate (padLen body.length) 0 ++ tail) by
      simp [List.append_assoc]]
    exact List.drop_left' (be4_length _)
  have h2 := unpackFstring_spec ⟨u.buf, u.pos + 4⟩ body.length body tail rfl
    (by simp only; omega) (by simpa using hdrop)
  simp only [Unpacker.unpackOpaque, bind, Except.bind, h1, h2]

/-- Stepping lemma: `unpack_auth` on a wire-format auth record. -/
theorem unpackAuth_spec (u : Unpacker) (f : Nat) (body tail : List Nat)
    (hf : f < 2 ^ 32) (hlen : body.length < 2 ^ 32)
    (hpos : u.pos ≤ u.buf.length)
    (h : u.buf.drop u.pos = mkAuthWire f body ++ tail) :
    u.unpackAuth =
      .ok ((toSigned f, body),
        ⟨u.buf, u.pos + 8 + body.length + padLen body.length⟩) := by
  simp only [mkAuthWire, List.append_assoc] at h
  have hL := drop_length_sum hpos h
  simp only [List.length_append, be4_length, List.length_replicate] at hL
  have h1 := unpackInt_spec u f _ hf h
  have hdrop : u.buf.drop (u.pos + 4) =
      be4 body.length ++ body ++ List.replicate (padLen body.length) 0 ++ tail := by
    have heq : u.buf.drop (u.pos + 4) = (u.buf.drop u.pos).drop 4 := by
      rw [List.drop_drop]
    rw [heq, h, List.drop_left' (be4_length _)]
    simp [List.append_assoc]
  have h2 := unpackOpaque_spec ⟨u.buf, u.pos + 4⟩ body tail hlen
    (by simp only; omega) (by simpa using hdrop)
  have hpos2 : u.pos + 4 + 4 + body.length + padLen body.length =
      u.pos + 8 + body.length + padLen body.length := by omega
  simp only [Unpacker.unpackAuth, bind, Except.bind, h1, h2, hpos2, pure,
    Except.pure]

theorem drop_add_chunk {l r c : List Nat} {p : Nat} (h : l.drop p = c ++ r) :
    l.drop (p + c.length) = r := by
  have h2 : (l.drop p).drop c.length = r := by rw [h, List.drop_left]
  rwa [List.drop_drop] at h2

theorem drop_add4 {l r : List Nat} {p : Nat} {x : Nat}
    (h : l.drop p = be4 x ++ r) : l.drop (p + 4) = r := by
  have := drop_add_chunk h
  rwa [be4_length] at this

theorem mkAuthWire_length (f : Nat) (b : List Nat) :
    (mkAuthWire f b).length = 8 + b.length + padLen b.length := by
  simp [mkAuthWire, be4_length]
  omega

theorem toSigned_eq_zero {x : Nat} (hx : x < 2 ^ 32) :
    toSigned x = 0 ↔ x = 0 := by
  simp only [toSigned]
  split <;> omega

theorem packUint_spec (buf : List Nat) (x : Nat) (h : x < 2 ^ 32) :
    packUint buf x = .ok (buf ++ be4 x) := by
  rw [packUint, if_pos h]

theorem packAuth_null (buf : List Nat) :
    packAuth buf authNull = .ok (buf ++ be4 0 ++ be4 0) := by
  simp [packAuth, authNull, packInt, packOpaque, packUint, packFstringBytes,
    bind, Except.bind, pure, Except.pure, be4]

set_option maxHeartbeats 2000000 in
/-- C1: the server's header decoder behaves as the seven-step pipeline.
On a call message carrying arbitrary field values: the xid is read
first and echoed as the first word of every reply the decoder builds;
a non-CALL msg_type raises `RPCHeaderError(None)` (no reply); an
rpcvers other than 2 yields the reply `xid, REPLY, MSG_DENIED,
RPC_MISMATCH, 2, 2`; otherwise `MSG_ACCEPTED` and a NULL verifier are
emitted, a prog differing from the server's ends the reply with
`PROG_UNAVAIL`, a vers differing from the server's ends it with
`PROG_MISMATCH` followed by the server's version twice, and a fully
matching header returns `(xid, call_id, cred, verf)` to be handed to
the procedure registry, the reply packer holding the accepted header
and the cursor sitting at the argument bytes. -/
theorem c1_server_header_pipeline (cfg : ServerCfg)
    (xid mtype rpcv prog vers proc fc fv : Nat) (bc bv args : List Nat)
    (hxid : xid < 2 ^ 32) (hmt : mtype < 2 ^ 32) (hrv : rpcv < 2 ^ 32)
    (hpr : prog < 2 ^ 32) (hvs : vers < 2 ^ 32) (hpc : proc < 2 ^ 32)
    (hfc : fc < 2 ^ 32) (hfv : fv < 2 ^ 32)
    (hbc : bc.length < 2 ^ 32) (hbv : bv.length < 2 ^ 32)
    (hcv : cfg.vers < 2 ^ 32) :
    (mtype ≠ 0 →
      getCallAttrs cfg [] ⟨mkCallWire xid mtype rpcv prog vers proc fc bc fv bv args, 0⟩ =
        .error (.headerError none)) ∧
    (mtype = 0 → rpcv ≠ 2 →
      getCallAttrs cfg [] ⟨mkCallWire xid mtype rpcv prog vers proc fc bc fv bv args, 0⟩ =
        .error (.headerError (some
          (be4 xid ++ be4 1 ++ be4 1 ++ be4 0 ++ be4 2 ++ be4 2)))) ∧
    (mtype = 0 → rpcv = 2 → prog ≠ cfg.prog →
      getCallAttrs cfg [] ⟨mkCallWire xid mtype rpcv prog vers proc fc bc fv bv args, 0⟩ =
        .error (.headerError (some (acceptedHdr xid ++ be4 1)))) ∧
    (mtype = 0 → rpcv = 2 → prog = cfg.prog → vers ≠ cfg.vers →
      getCallAttrs cfg [] ⟨mkCallWire xid mtype rpcv prog vers proc fc bc fv bv args, 0⟩ =
        .error (.headerError (some
          (acceptedHdr xid ++ be4 2 ++ be4 cfg.vers ++ be4 cfg.vers)))) ∧
    (mtype = 0 → rpcv = 2 → prog = cfg.prog → vers = cfg.vers →
      getCallAttrs cfg [] ⟨mkCallWire xid mtype rpcv prog vers proc fc bc fv bv args, 0⟩ =
        .ok ((xid, proc, (toSigned fc, bc), (toSigned fv, bv)),
          acceptedHdr xid,
          ⟨mkCallWire xid mtype rpcv prog vers proc fc bc fv bv args,
            32 + bc.length + padLen bc.length + 8 + bv.length + padLen bv.length⟩)) := by
  set wire := mkCallWire xid mtype rpcv prog vers proc fc bc fv bv args with hwdef
  have hd0 : wire.drop 0 = be4 xid ++ (be4 mtype ++ (be4 rpcv ++ (be4 prog ++
      (be4 vers ++ (be4 proc ++ (mkAuthWire fc bc ++ (mkAuthWire fv bv ++ args))))))) := by
    rw [List.drop_zero, hwdef]
    simp [mkCallWire, List.append_assoc]
  have hd4 : wire.drop 4 = be4 mtype ++ (be4 rpcv ++ (be4 prog ++
      (be4 vers ++ (be4 proc ++ (mkAuthWire fc bc ++ (mkAuthWire fv bv ++ args)))))) := by
    simpa using drop_add4 hd0
  have hd8 : wire.drop 8 = be4 rpcv ++ (be4 prog ++
      (be4 vers ++ (be4 proc ++ (mkAuthWire fc bc ++ (mkAuthWire fv bv ++ args))))) := by
    simpa using drop_add4 hd4
  have hd12 : wire.drop 12 = be4 prog ++
      (be4 vers ++ (be4 proc ++ (mkAuthWire fc bc ++ (mkAuthWire fv bv ++ args)))) := by
    simpa using drop_add4 hd8
  have hd16 : wire.drop 16 = be4 vers ++ (be4 proc ++
      (mkAuthWire fc bc ++ (mkAuthWire fv bv ++ args))) := by
    simpa using drop_add4 hd12
  have hd20 : wire.drop 20 = be4 proc ++
      (mkAuthWire fc bc ++ (mkAuthWire fv bv ++ args)) := by
    simpa using drop_add4 hd16
  have hd24 : wire.drop 24 = mkAuthWire fc bc ++ (mkAuthWire fv bv ++ args) := by
    simpa using drop_add4 hd20
  have hwlen : wire.length = 24 + (8 + bc.length + padLen bc.length) +
      ((8 + bv.length + padLen bv.length) + args.length) := by
    have h := congrArg List.length hd0
    simp only [List.drop_zero, List.length_append, be4_length,
      mkAuthWire_length] at h
    omega
  have hdA : wire.drop (32 + bc.length + padLen bc.length) =
      mkAuthWire fv bv ++ args := by
    have h := drop_add_chunk hd24
    rw [mkAuthWire_length] at h
    have heq : 24 + (8 + bc.length + padLen bc.length) =
        32 + bc.length + padLen bc.length := by omega
    rwa [heq] at h
  have e1 : Unpacker.unpackUint ⟨wire, 0⟩ = .ok (xid, ⟨wire, 4⟩) := by
    simpa using unpackUint_spec ⟨wire, 0⟩ xid _ hxid (by simpa using hd0)
  have e2 : Unpacker.unpackInt ⟨wire, 4⟩ = .ok (toSigned mtype, ⟨wire, 8⟩) := by
    simpa using unpackInt_spec ⟨wire, 4⟩ mtype _ hmt (by simpa using hd4)
  have e3 : Unpacker.unpackUint ⟨wire, 8⟩ = .ok (rpcv, ⟨wire, 12⟩) := by
    simpa using unpackUint_spec ⟨wire, 8⟩ rpcv _ hrv (by simpa using hd8)
  have e4 : Unpacker.unpackUint ⟨wire, 12⟩ = .ok (prog, ⟨wire, 16⟩) := by
    simpa using unpackUint_spec ⟨wire, 12⟩ prog _ hpr (by simpa using hd12)
  have e5 : Unpacker.unpackUint ⟨wire, 16⟩ = .ok (vers, ⟨wire, 20⟩) := by
    simpa using unpackUint_spec ⟨wire, 16⟩ vers _ hvs (by simpa using hd16)
  have e6 : Unpacker.unpackUint ⟨wire, 20⟩ = .ok (proc, ⟨wire, 24⟩) := by
    simpa using unpackUint_spec ⟨wire, 20⟩ proc _ hpc (by simpa using hd20)
  have e7 : Unpacker.unpackAuth ⟨wire, 24⟩ = .ok ((toSigned fc, bc),
      ⟨wire, 32 + bc.length + padLen bc.length⟩) := by
    simpa using unpackAuth_spec ⟨wire, 24⟩ fc bc (mkAuthWire fv bv ++ args)
      hfc hbc (by simp only; omega) (by simpa using hd24)
  have e8 : Unpacker.unpackAuth ⟨wire, 32 + bc.length + padLen bc.length⟩ =
      .ok ((toSigned fv, bv),
        ⟨wire, 32 + bc.length + padLen bc.length + 8 + bv.length + padLen bv.length⟩) := by
    simpa using unpackAuth_spec ⟨wire, 32 + bc.length + padLen bc.length⟩
      fv bv args hfv hbv (by simp only; omega) (by simpa using hdA)
  have pxid : ∀ b : List Nat, packUint b xid = .ok (b ++ be4 xid) :=
    fun b => packUint_spec b xid hxid
  have p0 : ∀ b : List Nat, packUint b 0 = .ok (b ++ be4 0) :=
    fun b => packUint_spec b 0 (by norm_num)
  have p1 : ∀ b : List Nat, packUint b 1 = .ok (b ++ be4 1) :=
    fun b => packUint_spec b 1 (by norm_num)
  have p2 : ∀ b : List Nat, packUint b 2 = .ok (b ++ be4 2) :=
    fun b => packUint_spec b 2 (by norm_num)
  have pcv : ∀ b : List Nat, packUint b cfg.vers = .ok (b ++ be4 cfg.vers) :=
    fun b => packUint_spec b cfg.vers hcv
  have ht0 : toSigned 0 = 0 := by norm_num [toSigned]
  refine ⟨?_, ?_, ?_, ?_, ?_⟩
  · intro hm
    have hcond : toSigned mtype ≠ CALL := by
      simp only [CALL]
      exact fun h => hm ((toSigned_eq_zero hmt).mp h)
    simp only [getCallAttrs, bind, Except.bind, e1, e2, pxid, hcond, ne_eq,
      not_false_eq_true, if_true, ite_true, throw, throwThe, MonadExceptOf.throw]
  · intro hm hr
    subst hm
    simp only [getCallAttrs, bind, Except.bind, e1, e2, e3, pxid, p0, p1, p2,
      ht0, CALL, REPLY, RPCVERSION, MSG_DENIED, RPC_MISMATCH, ne_eq, hr,
      not_false_eq_true, if_true, ite_true, not_true_eq_false, if_false,
      ite_false, throw, throwThe, MonadExceptOf.throw, List.nil_append,
      reduceIte, pure, Except.pure]
  · intro hm hr hp
    subst hm; subst hr
    simp only [getCallAttrs, bind, Except.bind, e1, e2, e3, e4, pxid, p0, p1,
      p2, packAuth_null, ht0, CALL, REPLY, RPCVERSION, MSG_DENIED,
      RPC_MISMATCH, MSG_ACCEPTED, PROG_UNAVAIL, acceptedHdr, ne_eq, hp,
      not_false_eq_true, if_true, ite_true, not_true_eq_false, if_false,
      ite_false, throw, throwThe, MonadExceptOf.throw, List.nil_append,
      List.append_assoc, reduceIte, pure, Except.pure]
  · intro hm hr hp hv
    subst hm; subst hr; subst hp
    simp only [getCallAttrs, bind, Except.bind, e1, e2, e3, e4, e5, pxid, p0,
      p1, p2, pcv, packAuth_null, ht0, CALL, REPLY, RPCVERSION, MSG_DENIED,
      RPC_MISMATCH, MSG_ACCEPTED, PROG_UNAVAIL, PROG_MISMATCH, acceptedHdr,
      ne_eq, hv, not_false_eq_true, if_true, ite_true, not_true_eq_false,
      if_false, ite_false, throw, throwThe, MonadExceptOf.throw,
      List.nil_append, List.append_assoc, reduceIte, pure, Except.pure]
  · intro hm hr hp hv
    subst hm; subst hr; subst hp; subst hv
    simp only [getCallAttrs, bind, Except.bind, e1, e2, e3, e4, e5, e6, e7, e8,
      pxid, p0, p1, p2, pcv, packAuth_null, ht0, CALL, REPLY, RPCVERSION,
      MSG_DENIED, RPC_MISMATCH, MSG_ACCEPTED, acceptedHdr, ne_eq,
      not_true_eq_false, if_false, ite_false, throw, throwThe,
      MonadExceptOf.throw, List.nil_append, List.append_assoc, reduceIte,
      pure, Except.pure]


/-- Witness for C1: a concrete fully matching call for a server
exposing prog 100 vers 1. -/
theorem c1_server_header_pipeline_witness :
    getCallAttrs ⟨100, 1⟩ [] ⟨mkCallWire 7 0 2 100 1 0 0 [] 0 [] [], 0⟩ =
      .ok ((7, 0, (toSigned 0, []), (toSigned 0, [])), acceptedHdr 7,
        ⟨mkCallWire 7 0 2 100 1 0 0 [] 0 [] [], 40⟩) :=
  (c1_server_header_pipeline ⟨100, 1⟩ 7 0 2 100 1 0 0 0 [] [] []
    (by norm_num) (by norm_num) (by norm_num) (by norm_num) (by norm_num)
    (by norm_num) (by norm_num) (by norm_num) (by norm_num) (by norm_num)
    (by norm_num)).2.2.2.2 rfl rfl rfl rfl

/-- C2 (code bug): `Server.handle` is claimed to return exactly one
reply for every input (no bytes only for a non-CALL msg_type), but on
an input too short for the call header — here the empty byte string —
`get_call_attrs` raises `EOFError` before `handle`'s tuple assignment
binds `xid`, and the `except` block's `packer.pack_uint(xid)` then
raises `UnboundLocalError` instead of returning a reply. -/
theorem c2_handle_truncated_input_raises :
    serverHandle ⟨100, 1⟩ defaultMethods [] = .error .unboundLocal := by
  rfl

/-- C3 (code bug): a call that reaches the registry with unconsumed
argument bytes is claimed to produce a GARBAGE_ARGS reply via
`turn_around`; but `turn_around` catches `RuntimeError` while
`xdrlib.Unpacker.done` raises `xdrlib.Error` (not a `RuntimeError`),
so the error propagates out of `handle` uncaught and no reply is
produced.  Concretely: a valid call to procedure 0 (`turn_around`
itself) with four extra argument bytes makes `handle` raise
`xdrlib.Error` instead of returning the claimed GARBAGE_ARGS reply. -/
theorem c3_turn_around_leftover_raises_xdrlib_error :
    serverHandle ⟨100, 1⟩ defaultMethods
      (mkCallWire 7 0 2 100 1 0 0 [] 0 [] [0, 0, 0, 0]) = .error .xdrError := by
  rfl


theorem packInt_spec (buf : List Nat) (x : Int)
    (h : -(2 ^ 31) ≤ x ∧ x < 2 ^ 31) :
    packInt buf x = .ok (buf ++ be4 (x % 2 ^ 32).toNat) := by
  rw [packInt, if_pos h]

theorem packOpaque_spec (buf s : List Nat) (h : s.length < 2 ^ 32) :
    packOpaque buf s =
      .ok (buf ++ be4 s.length ++ (s ++ List.replicate (padLen s.length) 0)) := by
  simp only [packOpaque, bind, Except.bind, packUint_spec buf s.length h,
    packFstringBytes, List.take_length, padLen, pure, Except.pure]

theorem packAuth_spec (buf : List Nat) (a : Auth)
    (h1 : -(2 ^ 31) ≤ a.1 ∧ a.1 < 2 ^ 31) (h2 : a.2.length < 2 ^ 32) :
    packAuth buf a = .ok (buf ++ be4 (a.1 % 2 ^ 32).toNat ++ be4 a.2.length ++
      (a.2 ++ List.replicate (padLen a.2.length) 0)) := by
  simp only [packAuth, bind, Except.bind, packInt_spec buf a.1 h1,
    packOpaque_spec _ a.2 h2]

/-- `Call.__init__` succeeds and records its fields when every header
component is packable. -/
theorem mkCallState_fields (xid prog vers proc : Nat) (cred verf : Option Auth)
    (hx : xid < 2 ^ 32) (hp : prog < 2 ^ 32) (hv : vers < 2 ^ 32)
    (hc : proc < 2 ^ 32)
    (ha1 : -(2 ^ 31) ≤ (cred.getD authNull).1 ∧ (cred.getD authNull).1 < 2 ^ 31)
    (ha2 : (cred.getD authNull).2.length < 2 ^ 32)
    (hb1 : -(2 ^ 31) ≤ (verf.getD authNull).1 ∧ (verf.getD authNull).1 < 2 ^ 31)
    (hb2 : (verf.getD authNull).2.length < 2 ^ 32) :
    ∃ c, mkCallState xid prog vers proc cred verf = .ok c ∧
      c.xid = xid ∧ c.prog = prog ∧ c.vers = vers ∧ c.proc = proc ∧
      c.cred = cred.getD authNull ∧ c.verf = verf.getD authNull ∧
      c.unpacker = ⟨[], 0⟩ := by
  have hhdr : ∃ b, packCallHeader [] xid prog vers proc (cred.getD authNull)
      (verf.getD authNull) = .ok b := by
    simp only [packCallHeader, bind, Except.bind,
      packUint_spec _ xid hx, packInt_spec _ CALL (by norm_num [CALL]),
      packUint_spec _ RPCVERSION (by norm_num [RPCVERSION]),
      packUint_spec _ prog hp, packUint_spec _ vers hv,
      packUint_spec _ proc hc, packAuth_spec _ _ ha1 ha2,
      packAuth_spec _ _ hb1 hb2]
    exact ⟨_, rfl⟩
  obtain ⟨b, hb⟩ := hhdr
  refine ⟨⟨xid, prog, vers, proc, cred.getD authNull, verf.getD authNull, b,
    ⟨[], 0⟩⟩, ?_, rfl, rfl, rfl, rfl, rfl, rfl, rfl⟩
  simp only [mkCallState, bind, Except.bind, hb, pure, Except.pure]

/-- The client state after `n` calls from a fresh client. -/
theorem afterCalls_state (prog vers proc : Nat) (i : Nat) :
    (Client.init prog vers).afterCalls proc i = ⟨prog, vers, i, none, none⟩ := by
  induction i with
  | zero => rfl
  | succ n ih => simp [Client.afterCalls, Client.makeCall, ih]

set_option maxHeartbeats 1000000 in
/-- C8: XIDs are allocated consecutively: after `i` `make_call`
invocations a fresh client's `lastxid` is `i`, and the next invocation
returns a `Call` carrying xid `i + 1` (so the first call has xid 1 and
consecutive returned calls differ by exactly 1). -/
theorem c8_xid_monotonic (prog vers proc : Nat) (i : Nat)
    (hp : prog < 2 ^ 32) (hv : vers < 2 ^ 32) (hc : proc < 2 ^ 32)
    (hi : i + 1 < 2 ^ 32) :
    ((Client.init prog vers).afterCalls proc i).lastxid = i ∧
    ∃ c, (((Client.init prog vers).afterCalls proc i).makeCall proc).2 = .ok c ∧
      c.xid = i + 1 := by
  rw [afterCalls_state]
  refine ⟨rfl, ?_⟩
  obtain ⟨c, hok, hxid, -⟩ := mkCallState_fields (i + 1) prog vers proc
    none none hi hp hv hc (by norm_num [authNull]) (by norm_num [authNull])
    (by norm_num [authNull]) (by norm_num [authNull])
  exact ⟨c, hok, hxid⟩

/-- Witness for C8: the first call of a fresh client has xid 1. -/
theorem c8_xid_monotonic_witness :
    ((Client.init 100 2).afterCalls 3 0).lastxid = 0 ∧
    ∃ c, (((Client.init 100 2).afterCalls 3 0).makeCall 3).2 = .ok c ∧
      c.xid = 0 + 1 :=
  c8_xid_monotonic 100 2 3 0 (by norm_num) (by norm_num) (by norm_num)
    (by norm_num)

/-- C9 counterexample: the upstream call does not mirror the incoming
xid.  For an incoming call with xid 7 the proxy's upstream `Call`
carries xid 8. -/
theorem c9_counterexample :
    ((proxyProcessCall (Client.init 100 2) 7 3 (1, [9]) (0, [])).2.map
      (fun c => c.xid)) = .ok 8 ∧ (8 : Nat) ≠ 7 :=
  ⟨rfl, by decide⟩

/-- C9 (amended): `Proxy.process_call` copies the wire cred/verf into
the upstream client and sets its `last_xid` to the incoming xid, but
`make_call` then increments `last_xid` again, so the upstream `Call`
carries the incoming xid plus one (not the same xid). -/
theorem c9_proxy_forward_amended (cl : Client) (xid callId : Nat)
    (auth verf : Auth) (hx : xid + 1 < 2 ^ 32) (hp : cl.prog < 2 ^ 32)
    (hv : cl.vers < 2 ^ 32) (hc : callId < 2 ^ 32)
    (ha1 : -(2 ^ 31) ≤ auth.1 ∧ auth.1 < 2 ^ 31) (ha2 : auth.2.length < 2 ^ 32)
    (hb1 : -(2 ^ 31) ≤ verf.1 ∧ verf.1 < 2 ^ 31) (hb2 : verf.2.length < 2 ^ 32) :
    (proxyProcessCall cl xid callId auth verf).1.cred = some auth ∧
    (proxyProcessCall cl xid callId auth verf).1.verf = some verf ∧
    (proxyProcessCall cl xid callId auth verf).1.lastxid = xid + 1 ∧
    ∃ c, (proxyProcessCall cl xid callId auth verf).2 = .ok c ∧
      c.xid = xid + 1 ∧ c.cred = auth ∧ c.verf = verf := by
  refine ⟨rfl, rfl, rfl, ?_⟩
  obtain ⟨c, hok, h1, -, -, -, h5, h6, -⟩ := mkCallState_fields (xid + 1)
    cl.prog cl.vers callId (some auth) (some verf) hx hp hv hc ha1 ha2 hb1 hb2
  exact ⟨c, hok, h1, h5, h6⟩

/-- Witness for C9 (amended): concrete upstream client and wire
values. -/
theorem c9_proxy_forward_amended_witness :
    (proxyProcessCall (Client.init 100 2) 7 3 (1, [9]) (0, [])).1.cred =
      some (1, [9]) ∧
    (proxyProcessCall (Client.init 100 2) 7 3 (1, [9]) (0, [])).1.verf =
      some (0, []) ∧
    (proxyProcessCall (Client.init 100 2) 7 3 (1, [9]) (0, [])).1.lastxid = 8 ∧
    ∃ c, (proxyProcessCall (Client.init 100 2) 7 3 (1, [9]) (0, [])).2 = .ok c ∧
      c.xid = 8 ∧ c.cred = (1, [9]) ∧ c.verf = (0, []) :=
  c9_proxy_forward_amended (Client.init 100 2) 7 3 (1, [9]) (0, [])
    (by norm_num) (by norm_num [Client.init]) (by norm_num [Client.init])
    (by norm_num) (by norm_num) (by norm_num) (by norm_num) (by norm_num)

/-- `unpack_replyheader` on a well-formed SUCCESS reply. -/
theorem unpackReplyHeader_success (rxid fv : Nat) (bv payload : List Nat)
    (hr : rxid < 2 ^ 32) (hfv : fv < 2 ^ 32) (hbv : bv.length < 2 ^ 32) :
    unpackReplyHeader ⟨mkReplyWire rxid fv bv 0 payload, 0⟩ =
      .ok ((rxid, (toSigned fv, bv)),
        ⟨mkReplyWire rxid fv bv 0 payload, 24 + bv.length + padLen bv.length⟩) := by
  set wire := mkReplyWire rxid fv bv 0 payload with hwdef
  have hd0 : wire.drop 0 = be4 rxid ++ (be4 1 ++ (be4 0 ++
      (mkAuthWire fv bv ++ (be4 0 ++ payload)))) := by
    rw [List.drop_zero, hwdef]
    simp [mkReplyWire, List.append_assoc]
  have hd4 : wire.drop 4 = be4 1 ++ (be4 0 ++
      (mkAuthWire fv bv ++ (be4 0 ++ payload))) := by
    simpa using drop_add4 hd0
  have hd8 : wire.drop 8 = be4 0 ++ (mkAuthWire fv bv ++ (be4 0 ++ payload)) := by
    simpa using drop_add4 hd4
  have hd12 : wire.drop 12 = mkAuthWire fv bv ++ (be4 0 ++ payload) := by
    simpa using drop_add4 hd8
  have hwlen : wire.length =
      12 + (8 + bv.length + padLen bv.length) + (4 + payload.length) := by
    have h := congrArg List.length hd0
    simp only [List.drop_zero, List.length_append, be4_length,
      mkAuthWire_length] at h
    omega
  have hdA : wire.drop (20 + bv.length + padLen bv.length) =
      be4 0 ++ payload := by
    have h := drop_add_chunk hd12
    rw [mkAuthWire_length] at h
    have heq : 12 + (8 + bv.length + padLen bv.length) =
        20 + bv.length + padLen bv.length := by omega
    rwa [heq] at h
  have e1 : Unpacker.unpackUint ⟨wire, 0⟩ = .ok (rxid, ⟨wire, 4⟩) := by
    simpa using unpackUint_spec ⟨wire, 0⟩ rxid _ hr (by simpa using hd0)
  have e2 : Unpacker.unpackInt ⟨wire, 4⟩ = .ok (toSigned 1, ⟨wire, 8⟩) := by
    simpa using unpackInt_spec ⟨wire, 4⟩ 1 _ (by norm_num) (by simpa using hd4)
  have e3 : Unpacker.unpackInt ⟨wire, 8⟩ = .ok (toSigned 0, ⟨wire, 12⟩) := by
    simpa using unpackInt_spec ⟨wire, 8⟩ 0 _ (by norm_num) (by simpa using hd8)
  have e4 : Unpacker.unpackAuth ⟨wire, 12⟩ = .ok ((toSigned fv, bv),
      ⟨wire, 20 + bv.length + padLen bv.length⟩) := by
    simpa using unpackAuth_spec ⟨wire, 12⟩ fv bv (be4 0 ++ payload)
      hfv hbv (by simp only; omega) (by simpa using hd12)
  have e5 : Unpacker.unpackInt ⟨wire, 20 + bv.length + padLen bv.length⟩ =
      .ok (toSigned 0, ⟨wire, 24 + bv.length + padLen bv.length⟩) := by
    have h := unpackInt_spec ⟨wire, 20 + bv.length + padLen bv.length⟩ 0
      payload (by norm_num) (by simpa using hdA)
    simp only at h
    have heq : 20 + bv.length + padLen bv.length + 4 =
        24 + bv.length + padLen bv.length := by omega
    rwa [heq] at h
  have ht1 : toSigned 1 = 1 := by norm_num [toSigned]
  have ht0 : toSigned 0 = 0 := by norm_num [toSigned]
  simp [unpackReplyHeader, bind, Except.bind, e1, e2, e3, e4, e5,
    processMessageType, ht1, ht0, throw, throwThe, MonadExceptOf.throw,
    pure, Except.pure]

set_option maxHeartbeats 1000000 in
/-- C7: reply correlation in `Call.set_reply`.  For a well-formed
SUCCESS reply: a mismatched xid returns `False` and leaves the Call's
inbound cursor reset to the empty buffer; a matching xid returns
`True` with the cursor positioned immediately after the reply
header. -/
theorem c7_set_reply_correlation (c : CallState) (rxid fv : Nat)
    (bv payload : List Nat) (hr : rxid < 2 ^ 32) (hfv : fv < 2 ^ 32)
    (hbv : bv.length < 2 ^ 32) :
    (rxid ≠ c.xid →
      setReply c (mkReplyWire rxid fv bv 0 payload) =
        .ok (false, { c with unpacker := ⟨[], 0⟩ })) ∧
    (rxid = c.xid →
      setReply c (mkReplyWire rxid fv bv 0 payload) =
        .ok (true, { c with unpacker :=
          ⟨mkReplyWire rxid fv bv 0 payload,
            24 + bv.length + padLen bv.length⟩ })) := by
  have hhdr := unpackReplyHeader_success rxid fv bv payload hr hfv hbv
  constructor
  · intro hne
    simp only [setReply, hhdr, if_neg hne]
  · intro heq
    simp only [setReply, hhdr, if_pos heq]

/-- Witness for C7: xid 2 against a call with xid 1 is discarded with
an emptied cursor, and xid 1 is accepted at the payload. -/
theorem c7_set_reply_correlation_witness :
    ((2 : Nat) ≠ callZero.xid →
      setReply callZero (mkReplyWire 2 0 [] 0 [5, 5]) =
        .ok (false, { callZero with unpacker := ⟨[], 0⟩ })) ∧
    ((2 : Nat) = callZero.xid →
      setReply callZero (mkReplyWire 2 0 [] 0 [5, 5]) =
        .ok (true, { callZero with unpacker :=
          ⟨mkReplyWire 2 0 [] 0 [5, 5], 24 + ([] : List Nat).length + padLen ([] : List Nat).length⟩ })) :=
  c7_set_reply_correlation callZero 2 0 [] [5, 5] (by norm_num) (by norm_num)
    (by norm_num)

/-- C6 counterexample: with no reply ever arriving, the UDP retry loop
waits with `select` timeouts 1, 2, 4, 8, 16 and then 32 seconds — six
windows, the last exceeding the claimed 25-second cap (the code only
stops doubling once the timeout has already reached 25, letting 16
double to 32). -/
theorem c6_counterexample :
    (udpAwait callZero 5 1 []).1 = [1, 2, 4, 8, 16, 32] ∧
    [1, 2, 4, 8, 16, 32] ≠ [1, 2, 4, 8, 16] ∧ ¬ (32 : Nat) ≤ 25 := by
  refine ⟨?_, by decide, by decide⟩
  simp [udpAwait, udpAwaitDry]

set_option maxHeartbeats 1000000 in
/-- C6 (amended): for a UDP client without a tunnel and no matching
reply, `do_call` waits with per-attempt timeouts of exactly 1, 2, 4,
8, 16 and 32 seconds (the doubling stops only once the timeout has
reached at least 25, so the final window is 32s), retransmits the call
exactly five times, and then fails with `RPCError('timeout')`; a
well-formed SUCCESS reply arriving with a non-matching xid is
discarded (cursor reset to empty) without consuming a retry and the
wait continues. -/
theorem c6_udp_retry_amended (c : CallState) (rxid fv : Nat)
    (bv payload : List Nat) (hr : rxid < 2 ^ 32) (hfv : fv < 2 ^ 32)
    (hbv : bv.length < 2 ^ 32) (hne : rxid ≠ c.xid) :
    udpDoCall c [] = ([1, 2, 4, 8, 16, 32], 5, .error .rpcError) ∧
    udpDoCall c [some (mkReplyWire rxid fv bv 0 payload)] =
      ([1, 1, 2, 4, 8, 16, 32], 5, .error .rpcError) := by
  have hsr : setReply c (mkReplyWire rxid fv bv 0 payload) =
      .ok (false, { c with unpacker := ⟨[], 0⟩ }) := by
    simp only [setReply, unpackReplyHeader_success rxid fv bv payload hr hfv hbv,
      if_neg hne]
  constructor
  · simp [udpDoCall, udpAwait, udpAwaitDry]
  · simp [udpDoCall, udpAwait, udpAwaitDry, hsr]

/-- Witness for C6 (amended): concrete call and mismatched reply. -/
theorem c6_udp_retry_amended_witness :
    udpDoCall callZero [] = ([1, 2, 4, 8, 16, 32], 5, .error .rpcError) ∧
    udpDoCall callZero [some (mkReplyWire 2 0 [] 0 [])] =
      ([1, 1, 2, 4, 8, 16, 32], 5, .error .rpcError) :=
  c6_udp_retry_amended callZero 2 0 [] [] (by norm_num) (by norm_num)
    (by norm_num) (by decide)

theorem descConstruct_default (d : RpcDesc) :
    descConstruct d .pyNone = .ok .pyNone := by
  cases d <;> simp [descConstruct, PyVal.truthy]

/-- C10 counterexample: `unpack_all` with `RpcFloat` second in the
expected types does not fail \"before reading any bytes\": the first
descriptor consumes four bytes, so the cursor ends at position 4, not
0 — and on an empty reply buffer the same type list fails with
`EOFError` from the first descriptor, before `RpcFloat()` is ever
constructed, so the failure is not even always a `ValueError`. -/
theorem c10_counterexample :
    (unpackAll 1 [.cls .rUInt, .clsFloat] ⟨[0, 0, 0, 1], 0⟩).2 =
      .error .valueError ∧
    (unpackAll 1 [.cls .rUInt, .clsFloat] ⟨[0, 0, 0, 1], 0⟩).1.pos = 4 ∧
    (4 : Nat) ≠ 0 ∧
    (unpackAll 1 [.cls .rUInt, .clsFloat] ⟨[], 0⟩).2 = .error .eofError := by
  refine ⟨?_, ?_, by decide, ?_⟩ <;>
    simp [unpackAll, rpcUnpack, descUnpack, descConstruct, postProcess,
      Unpacker.unpackUint, beToNat, PyVal.truthy, bind, Except.bind, pure,
      Except.pure, Except.map]

/-- C10 (amended): constructing `RpcFloat` (or `RpcDouble`) with the
default `None` raises `ValueError`; consequently `Call.unpack_all`
with such a type among its expected return types always fails, for
every reply buffer — but not necessarily before reading any bytes, nor
necessarily with `ValueError`: descriptors listed before the
float/double entry are constructed and unpacked first, consuming bytes
and possibly raising their own error.  When the float/double type is
the *first* expected type, `unpack_all` fails with `ValueError`
leaving the cursor untouched, i.e. before reading any bytes. -/
theorem c10_unpack_all_float_amended (fuel : Nat) (rets : List RpcClass)
    (u : Unpacker)
    (h : RpcClass.clsFloat ∈ rets ∨ RpcClass.clsDouble ∈ rets) :
    rpcFloatInit .pyNone = .error .valueError ∧
    (∃ e, (unpackAll fuel rets u).2 = .error e) ∧
    (∀ rest, rets = RpcClass.clsFloat :: rest →
      unpackAll fuel rets u = (u, .error .valueError)) ∧
    (∀ rest, rets = RpcClass.clsDouble :: rest →
      unpackAll fuel rets u = (u, .error .valueError)) := by
  refine ⟨rfl, ?_, ?_, ?_⟩
  · induction rets generalizing u with
    | nil => simp at h
    | cons r rest ih =>
      cases r with
      | cls d =>
        have hmem : RpcClass.clsFloat ∈ rest ∨ RpcClass.clsDouble ∈ rest := by
          rcases h with h | h <;> [left; right] <;>
            simpa using List.mem_of_ne_of_mem (by simp) h
        simp only [unpackAll, descConstruct_default]
        cases hu : rpcUnpack d fuel u with
        | error e => exact ⟨e, rfl⟩
        | ok p =>
          obtain ⟨e, he⟩ := ih p.2 hmem
          refine ⟨e, ?_⟩
          simp only [he]
          cases hres : (unpackAll fuel rest p.2).2 <;> simp_all [Except.map]
      | clsFloat => exact ⟨.valueError, rfl⟩
      | clsDouble => exact ⟨.valueError, rfl⟩
  · intro rest heq
    subst heq
    rfl
  · intro rest heq
    subst heq
    rfl

/-- Witness for C10 (amended): `RpcFloat` as the only expected type. -/
theorem c10_unpack_all_float_amended_witness :
    rpcFloatInit .pyNone = .error .valueError ∧
    (∃ e, (unpackAll 1 [RpcClass.clsFloat] ⟨[1, 2], 0⟩).2 = .error e) ∧
    (∀ rest, [RpcClass.clsFloat] = RpcClass.clsFloat :: rest →
      unpackAll 1 [RpcClass.clsFloat] ⟨[1, 2], 0⟩ = (⟨[1, 2], 0⟩, .error .valueError)) ∧
    (∀ rest, [RpcClass.clsFloat] = RpcClass.clsDouble :: rest →
      unpackAll 1 [RpcClass.clsFloat] ⟨[1, 2], 0⟩ = (⟨[1, 2], 0⟩, .error .valueError)) :=
  c10_unpack_all_float_amended 1 [RpcClass.clsFloat] ⟨[1, 2], 0⟩
    (Or.inl (by simp))

theorem lor_two_pow_31 {l : Nat} (h : l < 2 ^ 31) :
    l ||| 2 ^ 31 = 2 ^ 31 + l := by
  apply Nat.eq_of_testBit_eq
  intro i
  rcases lt_trichotomy i 31 with hi | rfl | hi
  · rw [Nat.testBit_lor, Nat.testBit_two_pow_add_gt hi,
      Nat.testBit_two_pow_of_ne (by omega), Bool.or_false]
  · rw [Nat.testBit_lor, Nat.testBit_two_pow_add_eq,
      Nat.testBit_two_pow_self, Nat.testBit_lt_two_pow h, Bool.false_or]
    rfl
  · have h2 : 2 ^ 31 + l < 2 ^ i := by
      have : (2 : Nat) ^ 32 ≤ 2 ^ i := Nat.pow_le_pow_right (by norm_num) hi
      omega
    rw [Nat.testBit_lor, Nat.testBit_lt_two_pow h2,
      Nat.testBit_lt_two_pow (by omega),
      Nat.testBit_two_pow_of_ne (by omega)]
    rfl

theorem sendfrag_last {frag : List Nat} (h : frag.length < 2 ^ 31) :
    sendfrag true frag = .ok (be4 (2 ^ 31 + frag.length) ++ frag) := by
  simp only [sendfrag, if_pos rfl,
    show (0x80000000 : Nat) = 2 ^ 31 by norm_num, lor_two_pow_31 h, if_true,
    ite_true]
  rw [if_pos (by omega)]

theorem sendfrag_not_last {frag : List Nat} (h : frag.length < 2 ^ 31) :
    sendfrag false frag = .ok (be4 frag.length ++ frag) := by
  simp only [sendfrag, Bool.false_eq_true, if_false, reduceIte]
  rw [if_pos (by omega)]

theorem recvfrag_spec (x : Nat) (frag rest : List Nat) (hx : x < 2 ^ 32)
    (hsz : x &&& 0x7fffffff = frag.length) :
    recvfrag (be4 x ++ frag ++ rest) =
      .ok ((decide (x &&& 0x80000000 ≠ 0), frag), rest) := by
  have htk4 : ((be4 x ++ (frag ++ rest)).take 4) = be4 x :=
    List.take_left' (be4_length x)
  have hdp4 : ((be4 x ++ (frag ++ rest)).drop 4) = frag ++ rest :=
    List.drop_left' (be4_length x)
  simp only [recvfrag, List.append_assoc, htk4, hdp4, be4_length, lt_irrefl,
    if_false, beToNat_be4 x hx, hsz]
  rw [if_neg (by simp), List.take_left, List.drop_left]

/-- Shift lemma for `sendrecord`'s fold: starting the accumulator at
`acc` prepends `acc` to the result. -/
theorem sendWire_shift (frames : List (Bool × List Nat)) (acc : List Nat) :
    frames.foldlM sendWireStep acc =
      (frames.foldlM sendWireStep []).map (acc ++ ·) := by
  induction frames generalizing acc with
  | nil => simp [List.foldlM, Except.map, pure, Except.pure]
  | cons lf rest ih =>
    simp only [List.foldlM, sendWireStep, bind, Except.bind]
    cases hsf : sendfrag lf.1 lf.2 with
    | error e => simp [Except.map]
    | ok bytes =>
      simp only [pure, Except.pure]
      rw [ih (acc ++ bytes), ih ([] ++ bytes)]
      cases hrest : rest.foldlM sendWireStep ([] : List Nat) <;>
        simp [Except.map, List.append_assoc]

/-- One step of `recvrecord`, exposed as an equation usable when the
first `recvfrag` result is known. -/
theorem recvrecord_step (s : List Nat) (last : Bool) (frag rest : List Nat)
    (h : recvfrag s = .ok ((last, frag), rest)) :
    recvrecord s =
      if last then .ok (frag, rest)
      else
        match recvrecord rest with
        | .error e => .error e
        | .ok (record, rest2) => .ok (frag ++ record, rest2) := by
  rw [recvrecord]
  split
  · next e heq => rw [h] at heq; cases heq
  · next l f r heq =>
      rw [h] at heq
      cases heq
      rfl

/-- C5 counterexample: sending the empty record emits no fragment at
all (the claim demanded one empty last fragment), and receiving the
resulting empty stream raises `EOFError` instead of yielding the empty
record. -/
theorem c5_counterexample :
    sendrecordFrames ([] : List Nat) 1 = .ok [] ∧
    sendrecord ([] : List Nat) 1 = .ok [] ∧
    recvrecord ([] : List Nat) = .error .eofError ∧
    ([] : List (Bool × List Nat)).length ≠ 1 := by
  refine ⟨?_, ?_, ?_, by decide⟩
  · simp [sendrecordFrames]
  · simp [sendrecord, sendrecordFrames, bind, Except.bind, List.foldlM, pure,
      Except.pure]
  · simp [recvrecord, recvfrag]

set_option maxHeartbeats 1000000 in
/-- C5 (amended): for a nonempty record and a fragment size between 1
and `2^31 - 1`, `sendrecord` emits exactly
`ceil(len(record)/max_frag)` fragments, and `recvrecord` applied to
the emitted bytes (followed by any further stream content) returns
exactly the original record, leaving the remainder unread.  The empty
record is the exception the original claim missed: it emits zero
fragments and the receiver meets end-of-stream. -/
theorem c5_fragment_roundtrip_amended (record : List Nat) (fragSize : Nat)
    (rest : List Nat) (h1 : 1 ≤ fragSize) (h2 : fragSize ≤ 0x7fffffff)
    (h3 : record ≠ []) :
    ∃ frames wire,
      sendrecordFrames record fragSize = .ok frames ∧
      frames.length = (record.length + fragSize - 1) / fragSize ∧
      sendrecord record fragSize = .ok wire ∧
      recvrecord (wire ++ rest) = .ok (record, rest) := by
  have hf0 : ¬ fragSize = 0 := by omega
  have hl0 : ¬ record.length = 0 := by
    simpa using fun h => h3 (List.length_eq_zero.mp h)
  by_cases hle : record.length ≤ fragSize
  · have htake : record.take fragSize = record := List.take_of_length_le hle
    have hdrop : record.drop fragSize = [] := List.drop_eq_nil_of_le hle
    have hframes : sendrecordFrames record fragSize = .ok [(true, record)] := by
      conv_lhs => rw [sendrecordFrames]
      rw [if_neg hf0, if_neg hl0, hdrop]
      conv_lhs => rw [sendrecordFrames]
      simp [htake, hle, hf0]
    have hlen31 : record.length < 2 ^ 31 := by omega
    refine ⟨[(true, record)], be4 (2 ^ 31 + record.length) ++ record, hframes,
      ?_, ?_, ?_⟩
    · simp only [List.length_cons, List.length_nil]
      symm
      exact Nat.div_eq_of_lt_le (by omega) (by omega)
    · simp only [sendrecord, bind, Except.bind, hframes, List.foldlM,
        sendWireStep, sendfrag_last hlen31, pure, Except.pure,
        List.nil_append]
    · have hx : 2 ^ 31 + record.length < 2 ^ 32 := by omega
      have hmask : (2 ^ 31 + record.length) &&& 0x7fffffff = record.length := by
        rw [show (0x7fffffff : Nat) = 2 ^ 31 - 1 by norm_num,
          Nat.and_pow_two_sub_one_eq_mod]
        omega
      have hrf := recvfrag_spec (2 ^ 31 + record.length) record rest hx hmask
      have hlast : decide ((2 ^ 31 + record.length) &&& 0x80000000 ≠ 0) = true := by
        rw [show (0x80000000 : Nat) = 2 ^ 31 by norm_num, Nat.and_two_pow,
          Nat.testBit_two_pow_add_eq, Nat.testBit_lt_two_pow hlen31]
        simp
      rw [hlast] at hrf
      rw [recvrecord_step _ _ _ _ hrf]
      simp
  · push_neg at hle
    have hdropne : record.drop fragSize ≠ [] := by
      intro h
      have := congrArg List.length h
      simp at this
      omega
    obtain ⟨frames', wire', hf', hlen', hw', hr'⟩ :=
      c5_fragment_roundtrip_amended (record.drop fragSize) fragSize rest h1 h2
        hdropne
    have htklen : (record.take fragSize).length = fragSize := by
      simp [List.length_take]
      omega
    have htk31 : (record.take fragSize).length < 2 ^ 31 := by
      rw [htklen]; omega
    have hframes : sendrecordFrames record fragSize =
        .ok ((false, record.take fragSize) :: frames') := by
      conv_lhs => rw [sendrecordFrames]
      rw [if_neg hf0, if_neg hl0, hf']
      simp only [Except.ok.injEq, List.cons.injEq, Prod.mk.injEq,
        decide_eq_false_iff_not, and_true]
      omega
    refine ⟨(false, record.take fragSize) :: frames',
      be4 (record.take fragSize).length ++ record.take fragSize ++ wire',
      hframes, ?_, ?_, ?_⟩
    · simp only [List.length_cons, hlen']
      have hsplit : record.length + fragSize - 1 =
          (record.length - fragSize + fragSize - 1) + fragSize := by omega
      rw [List.length_drop, hsplit, Nat.add_div_right _ (by omega)]
    · have hwfold : frames'.foldlM sendWireStep ([] : List Nat) = .ok wire' := by
        simpa only [sendrecord, bind, Except.bind, hf'] using hw'
      simp only [sendrecord, bind, Except.bind, hframes, List.foldlM,
        sendWireStep, sendfrag_not_last htk31, pure, Except.pure,
        List.nil_append]
      rw [sendWire_shift, hwfold]
      simp [Except.map, List.append_assoc]
    · have hx : (record.take fragSize).length < 2 ^ 32 := by omega
      have hmask : (record.take fragSize).length &&& 0x7fffffff =
          (record.take fragSize).length := by
        rw [show (0x7fffffff : Nat) = 2 ^ 31 - 1 by norm_num,
          Nat.and_pow_two_sub_one_eq_mod]
        omega
      have hrf := recvfrag_spec (record.take fragSize).length
        (record.take fragSize) (wire' ++ rest) hx hmask
      have hlast : decide ((record.take fragSize).length &&& 0x80000000 ≠ 0) =
          false := by
        rw [show (0x80000000 : Nat) = 2 ^ 31 by norm_num, Nat.and_two_pow,
          Nat.testBit_lt_two_pow htk31]
        simp
      rw [hlast] at hrf
      rw [List.append_assoc]
      rw [recvrecord_step _ _ _ _ hrf]
      rw [if_neg (by simp), hr']
      simp [List.take_append_drop]
termination_by record.length
decreasing_by
  simp only [List.length_drop]
  omega

/-- Witness for C5 (amended): a five-byte record with fragment size
2 round-trips in three fragments past trailing stream content. -/
theorem c5_fragment_roundtrip_amended_witness :
    ∃ frames wire,
      sendrecordFrames [1, 2, 3, 4, 5] 2 = .ok frames ∧
      frames.length = (([1, 2, 3, 4, 5] : List Nat).length + 2 - 1) / 2 ∧
      sendrecord [1, 2, 3, 4, 5] 2 = .ok wire ∧
      recvrecord (wire ++ [9, 9]) = .ok ([1, 2, 3, 4, 5], [9, 9]) :=
  c5_fragment_roundtrip_amended [1, 2, 3, 4, 5] 2 [9, 9] (by norm_num)
    (by norm_num) (by decide)

/-- C4: the XDR round trip fails for every `RpcFString(n)` descriptor
on the length-`n` string of letters `a`: a truthy value reaches
`self.value = value.decode()` in `RpcFString.__init__`, and `str` has
no `decode`, so construction raises `AttributeError`; the empty string
(n = 0) survives construction but `Packer.pack_fstring` concatenates
the `str` data with `bytes` padding, raising `TypeError`.  Either way
no FString value ever round-trips, refuting the claim's universal
round-trip property. -/
theorem c4_fstring_never_roundtrips (n fuel : Nat) :
    rpcRoundTrip (.rFString n) fuel (.pyStr (List.replicate n 97)) =
      .error (if n = 0 then .typeError else .attributeError) := by
  cases n with
  | zero =>
      simp [rpcRoundTrip, descConstruct, PyVal.truthy, descPackFunc,
        packFstringLike, bind, Except.bind]
  | succ m =>
      simp [rpcRoundTrip, descConstruct, PyVal.truthy, bind, Except.bind,
        List.replicate_succ, List.length_replicate]

end SunRPC
